import Mathlib

/-!
Verification of the 2D nesting engines (`optimized_nesting_hybrid.py`,
`optimized_nesting_v2.py`, `optimized_nesting_planar.py`) and of the beam-saw
guillotine variant (`test_nesting.py`).

Python floats are modelled as exact rationals (`ℚ`); all numeric constants of
the source (`1e-6`, `0.1`, `0.95`, `0.9`) are exact rationals, so every guard
of the source translates verbatim.  Python's stable `sorted` is modelled by
`List.insertionSort`: the output of a stable sort is uniquely determined by the
(total, transitive) boolean key comparison, and `List.insertionSort` is stable,
so the two agree element for element.
-/

/-- The epsilon tolerance `1e-6` used by all boundary comparisons. -/
def eps : ℚ := 1 / 1000000

/-- Python `int(...)` applied to a float: truncation toward zero. -/
def pyInt (q : ℚ) : ℤ := if q < 0 then ⌈q⌉ else ⌊q⌋

/-- `max(0, min(n - 1, v))` as used for clamping grid indices, yielding a
natural-number index. -/
def clampIdx (n : ℕ) (v : ℤ) : ℕ := (max 0 (min ((n : ℤ) - 1) v)).toNat

/-- The cells spanned by the axis-aligned rectangle `(x, y, w, h)` on a grid of
`cols × rows` cells of size `cell_w × cell_h`; transcribes
`Sheet._get_grid_cells` (identical in the hybrid, v2 and planar engines):
floor/ceil of the boundary coordinates, clamped to valid indices, then the
row-major list of `(row, col)` pairs. -/
def gridCellsOf (cols rows : ℕ) (cell_w cell_h x y w h : ℚ) : List (ℕ × ℕ) :=
  let x0 := clampIdx cols ⌊x / cell_w⌋
  let y0 := clampIdx rows ⌊y / cell_h⌋
  let x1 := clampIdx cols ⌈(x + w) / cell_w⌉
  let y1 := clampIdx rows ⌈(y + h) / cell_h⌉
  (List.range' y0 (y1 + 1 - y0)).flatMap fun row =>
    (List.range' x0 (x1 + 1 - x0)).filterMap fun col =>
      if row < rows ∧ col < cols then some (row, col) else none

/-- The open-rectangle overlap test used inside `Sheet.fits`:
`not (x + pw <= px or x >= px + p_pw or y + ph <= py or y >= py + p_ph)`. -/
def rectsOverlap (x y w h px py pw ph : ℚ) : Bool :=
  decide (¬ (x + w ≤ px ∨ px + pw ≤ x ∨ y + h ≤ py ∨ py + ph ≤ y))

/-- Open-rectangle overlap as a proposition (the naive pairwise test the spec
describes). -/
def overlapQ (x y w h px py pw ph : ℚ) : Prop :=
  px < x + w ∧ x < px + pw ∧ py < y + h ∧ y < py + ph

/-- `lst[::k]` for `k ≥ 1`: every `k`-th element starting at index 0. -/
def everyKth {α : Type} (l : List α) (k : ℕ) : List α :=
  (l.enum.filter fun p => p.1 % k == 0).map Prod.snd

namespace Hybrid

/-- `Panel` of the hybrid/v2 engines.  The kerf-inclusive placed-dimension
caches are pure memoization and are represented by the functions
`get_placed_width`/`get_placed_height`; the optional tag plays no role in the
engine. -/
structure Panel where
  orig_w : ℚ
  orig_h : ℚ
  w : ℚ
  h : ℚ
  rotated : Bool
  id : ℕ
deriving DecidableEq

/-- `Panel.__init__(w, h, id)`. -/
def Panel.make (w h : ℚ) (id : ℕ) : Panel :=
  { orig_w := w, orig_h := h, w := w, h := h, rotated := false, id := id }

/-- `Panel.rotate`: swap `w`/`h` and flip the rotation flag (the cache
invalidation has no observable effect in the model). -/
def Panel.rotate (p : Panel) : Panel :=
  { p with w := p.h, h := p.w, rotated := !p.rotated }

/-- `Panel.area` is set once in `__init__` from the initial `w * h` and never
reassigned, so it always equals `orig_w * orig_h`. -/
def Panel.area (p : Panel) : ℚ := p.orig_w * p.orig_h

/-- `Panel.get_placed_width`: current width plus kerf. -/
def Panel.get_placed_width (kerf : ℚ) (p : Panel) : ℚ := p.w + kerf

/-- `Panel.get_placed_height`: current height plus kerf. -/
def Panel.get_placed_height (kerf : ℚ) (p : Panel) : ℚ := p.h + kerf

/-- `Panel.copy`: rebuild from the original dimensions and reapply the
rotation. -/
def Panel.copy (p : Panel) : Panel :=
  let q := Panel.make p.orig_w p.orig_h p.id
  if p.rotated then q.rotate else q

/-- `FreeRectangle` as in the hybrid/v2/planar engines. -/
structure FreeRectangle where
  x : ℚ
  y : ℚ
  w : ℚ
  h : ℚ
deriving DecidableEq

/-- `FreeRectangle.area`. -/
def FreeRectangle.area (r : FreeRectangle) : ℚ := r.w * r.h

/-- `FreeRectangle.intersects`. -/
def FreeRectangle.intersects (a b : FreeRectangle) : Bool :=
  decide (¬ (a.x + a.w ≤ b.x ∨ b.x + b.w ≤ a.x ∨ a.y + a.h ≤ b.y ∨ b.y + b.h ≤ a.y))

/-- `FreeRectangle.contains`. -/
def FreeRectangle.contains (a b : FreeRectangle) : Bool :=
  decide (a.x ≤ b.x ∧ a.y ≤ b.y ∧ b.x + b.w ≤ a.x + a.w ∧ b.y + b.h ≤ a.y + a.h)

/-- `Sheet._prune_free_rects`: drop every rectangle contained in another one
(at a different index). -/
def prune_free_rects (rects : List FreeRectangle) : List FreeRectangle :=
  if rects.length ≤ 1 then rects
  else
    ((rects.enum.filter fun ir =>
        !(rects.enum.any fun jo => decide (jo.1 ≠ ir.1) && jo.2.contains ir.2)).map
      Prod.snd)

/-- `Sheet._update_free_rects`: four-way split of every intersecting free
rectangle, then pruning. -/
def update_free_rects (free_rects : List FreeRectangle) (placed_x placed_y placed_w placed_h : ℚ) :
    List FreeRectangle :=
  let placed : FreeRectangle := ⟨placed_x, placed_y, placed_w, placed_h⟩
  let new_free := free_rects.flatMap fun rect =>
    if rect.intersects placed = false then [rect]
    else
      (if placed_x > rect.x then
        [⟨rect.x, rect.y, placed_x - rect.x, rect.h⟩] else []) ++
      (if placed_x + placed_w < rect.x + rect.w then
        [⟨placed_x + placed_w, rect.y, rect.x + rect.w - (placed_x + placed_w), rect.h⟩] else []) ++
      (if placed_y > rect.y then
        [⟨rect.x, rect.y, rect.w, placed_y - rect.y⟩] else []) ++
      (if placed_y + placed_h < rect.y + rect.h then
        [⟨rect.x, placed_y + placed_h, rect.w, rect.y + rect.h - (placed_y + placed_h)⟩] else [])
  prune_free_rects new_free

/-- Skyline segment order: Python's `sort(key=lambda s: (s[1], s[0]))`, i.e.
by `y` then `x` (the width is not part of the key). -/
def segLe (a b : ℚ × ℚ × ℚ) : Prop :=
  a.2.1 < b.2.1 ∨ (a.2.1 = b.2.1 ∧ a.1 ≤ b.1)

instance : DecidableRel segLe := fun a b => by unfold segLe; infer_instance

/-- The loop of `Sheet._update_skyline` over the old segments: `new_segment`
is the mutable triple `[x, y + h, w]` (only slots 0 and 2 are ever written);
`merged` records whether a same-height merge already happened.  Returns the
surviving old segments followed by the final new segment, before sorting. -/
def update_skyline_loop (x y w h : ℚ) (skyline : List (ℚ × ℚ × ℚ)) : List (ℚ × ℚ × ℚ) :=
  let nsY := y + h
  let st := skyline.foldl
    (fun (st : ℚ × ℚ × Bool × List (ℚ × ℚ × ℚ)) seg =>
      let ns0 := st.1
      let ns2 := st.2.1
      let merged := st.2.2.1
      let acc := st.2.2.2
      if x < seg.1 + seg.2.2 ∧ x + w > seg.1 then
        if |seg.2.1 - nsY| < 1 / 10 then
          if merged then (ns0, ns2, merged, acc)
          else
            let ns0' := min ns0 seg.1
            let ns2' := max (ns0' + ns2) (seg.1 + seg.2.2) - ns0'
            (ns0', ns2', true, acc)
        else if seg.2.1 < nsY then (ns0, ns2, merged, acc)
        else (ns0, ns2, merged, acc ++ [seg])
      else (ns0, ns2, merged, acc ++ [seg]))
    (x, w, false, [])
  st.2.2.2 ++ [(st.1, nsY, st.2.1)]

/-- `Sheet._update_skyline` up to (and including) the sort, before the
100-segment cap is applied. -/
def update_skyline_sorted (skyline : List (ℚ × ℚ × ℚ)) (x y w h : ℚ) : List (ℚ × ℚ × ℚ) :=
  List.insertionSort segLe (update_skyline_loop x y w h skyline)

/-- `Sheet._update_skyline`: merge/shadow pass, sort by `(y, x)`, cap at 100
segments by truncating the sorted list. -/
def update_skyline (skyline : List (ℚ × ℚ × ℚ)) (x y w h : ℚ) : List (ℚ × ℚ × ℚ) :=
  let updated := update_skyline_sorted skyline x y w h
  if updated.length > 100 then updated.take 100 else updated

/-- `Sheet` of the hybrid engine: placed panels, adaptive spatial grid
(represented as a total function from cell coordinates to the registered
panel indices; the Python nested lists are only ever accessed at clamped,
in-range indices), skyline and free-rectangle index. -/
structure Sheet where
  orig_w : ℚ
  orig_h : ℚ
  w : ℚ
  h : ℚ
  panels : List (Panel × ℚ × ℚ)
  type_id : ℕ
  filled_area : ℚ
  grid_cols : ℕ
  grid_rows : ℕ
  cell_w : ℚ
  cell_h : ℚ
  grid : ℕ → ℕ → List ℕ
  skyline : List (ℚ × ℚ × ℚ)
  free_rects : List FreeRectangle

/-- `Sheet.__init__(w, h, type_id, avg_panel_size)`: the adaptive grid
resolution `max(5, min(50, int(w / (avg * 5))))` (or the default 20), one
all-free rectangle, the base skyline segment. -/
def Sheet.make (w h : ℚ) (type_id : ℕ) (avg_panel_size : Option ℚ) : Sheet :=
  let grid_cols : ℕ := match avg_panel_size with
    | some a => (max 5 (min 50 (pyInt (w / (a * 5))))).toNat
    | none => 20
  let grid_rows : ℕ := match avg_panel_size with
    | some a => (max 5 (min 50 (pyInt (h / (a * 5))))).toNat
    | none => 20
  { orig_w := w, orig_h := h, w := w, h := h, panels := [], type_id := type_id,
    filled_area := 0, grid_cols := grid_cols, grid_rows := grid_rows,
    cell_w := w / grid_cols, cell_h := h / grid_rows,
    grid := fun _ _ => [], skyline := [(0, 0, w)],
    free_rects := [⟨0, 0, w, h⟩] }

/-- `Sheet._get_grid_cells`. -/
def Sheet.get_grid_cells (s : Sheet) (x y w h : ℚ) : List (ℕ × ℕ) :=
  gridCellsOf s.grid_cols s.grid_rows s.cell_w s.cell_h x y w h

/-- `Sheet.fits`: epsilon-tolerant in-bounds check, then the grid-scoped
collision scan.  The Python `checked` set only avoids re-testing the same
(pure) predicate on the same panel index and is dropped; out-of-range indices
return `false` (they never occur: every registered index is a valid position
in `panels`). -/
def Sheet.fits (kerf : ℚ) (s : Sheet) (panel : Panel) (x y : ℚ) : Bool :=
  let pw := panel.get_placed_width kerf
  let ph := panel.get_placed_height kerf
  if x + pw > s.w + eps ∨ y + ph > s.h + eps ∨ x < -eps ∨ y < -eps then false
  else
    !((s.get_grid_cells x y pw ph).any fun rc =>
      (s.grid rc.1 rc.2).any fun panel_idx =>
        match s.panels[panel_idx]? with
        | some (p, px, py) =>
            rectsOverlap x y pw ph px py (p.get_placed_width kerf) (p.get_placed_height kerf)
        | none => false)

/-- `Sheet.place`: append the panel, register its index in every spanned grid
cell, add the kerf-inclusive footprint area to `filled_area`, update skyline
and free rectangles. -/
def Sheet.place (kerf : ℚ) (s : Sheet) (panel : Panel) (x y : ℚ) : Sheet :=
  let panel_idx := s.panels.length
  let pw := panel.get_placed_width kerf
  let ph := panel.get_placed_height kerf
  let cells := s.get_grid_cells x y pw ph
  { s with
    panels := s.panels ++ [(panel, x, y)],
    grid := fun r c => if (r, c) ∈ cells then s.grid r c ++ [panel_idx] else s.grid r c,
    filled_area := s.filled_area + pw * ph,
    skyline := update_skyline s.skyline x y pw ph,
    free_rects := update_free_rects s.free_rects x y pw ph }

/-- `Sheet.efficiency`. -/
def Sheet.efficiency (s : Sheet) : ℚ :=
  if s.panels = [] then 0 else s.filled_area / (s.w * s.h)

/-- `Sheet.should_stop_adding`: efficiency above `0.95`. -/
def Sheet.should_stop_adding (s : Sheet) : Bool :=
  decide (s.efficiency > 19 / 20)

/-- Candidate-position order: Python's `sorted(..., key=lambda p: (p[1], p[0]))`. -/
def posLe (a b : ℚ × ℚ) : Prop :=
  a.2 < b.2 ∨ (a.2 = b.2 ∧ a.1 ≤ b.1)

instance : DecidableRel posLe := fun a b => by unfold posLe; infer_instance

/-- `Sheet.get_candidate_positions`: skyline-derived and corner-derived
positions, deduplicated (Python collects them in a `set`), filtered to the
sheet interior and sorted bottom-left.  The `(y, x)` key is injective on the
deduplicated pairs, so the canonical sort makes the set-iteration order
immaterial. -/
def Sheet.get_candidate_positions (kerf : ℚ) (s : Sheet) : List (ℚ × ℚ) :=
  if s.panels = [] then [(0, 0)]
  else
    let skypos := (s.skyline.take 30).flatMap fun seg =>
      (seg.1, seg.2.1) :: (if seg.1 + seg.2.2 < s.w then [(seg.1 + seg.2.2, seg.2.1)] else [])
    let cornpos := s.panels.flatMap fun t =>
      let pw := t.1.get_placed_width kerf
      let ph := t.1.get_placed_height kerf
      [(t.2.1 + pw, t.2.2), (t.2.1, t.2.2 + ph), (t.2.1 + pw, t.2.2 + ph),
       ((0 : ℚ), t.2.2 + ph), (t.2.1 + pw, (0 : ℚ))]
    let positions := (skypos ++ cornpos).dedup
    let valid := positions.filter fun q =>
      decide (0 ≤ q.1 ∧ 0 ≤ q.2 ∧ q.1 < s.w ∧ q.2 < s.h)
    List.insertionSort posLe valid

/-- The down-sampling `(positions[:20] + positions[-10:]
+ positions[20:-10:max(1, (len(positions)-30)//20)])[:50]` applied when more
than 50 candidates exist. -/
def samplePositions (positions : List (ℚ × ℚ)) : List (ℚ × ℚ) :=
  if positions.length > 50 then
    let n := positions.length
    let step := max 1 ((n - 30) / 20)
    let mid := (positions.drop 20).take (n - 10 - 20)
    (positions.take 20 ++ positions.drop (n - 10) ++ everyKth mid step).take 50
  else positions

/-- `if waste < best_waste: best_waste, best_position, best_rotated = ...`
with `none` playing the role of the initial infinite `best_waste`. -/
def considerCandidate (best : Option (ℚ × ℚ × ℚ × Bool)) (waste x y : ℚ) (rot : Bool) :
    Option (ℚ × ℚ × ℚ × Bool) :=
  match best with
  | none => some (waste, x, y, rot)
  | some b => if waste < b.1 then some (waste, x, y, rot) else best

/-- The body of the candidate loop in `Sheet.try_add_panel`: try the panel
unrotated and rotated at one position, keeping the best
`(waste, x, y, rotated)` seen so far.  The Python
`panel.rotate(); ...; panel.rotate()` pair leaves the panel unchanged and is
modelled by testing `panel.rotate`. -/
def tryStep (kerf : ℚ) (s : Sheet) (panel : Panel)
    (best : Option (ℚ × ℚ × ℚ × Bool)) (pos : ℚ × ℚ) : Option (ℚ × ℚ × ℚ × Bool) :=
  let best1 :=
    if s.fits kerf panel pos.1 pos.2 then
      considerCandidate best (pos.2 + panel.get_placed_height kerf) pos.1 pos.2 false
    else best
  if s.fits kerf panel.rotate pos.1 pos.2 then
    considerCandidate best1 (pos.2 + (panel.rotate).get_placed_height kerf) pos.1 pos.2 true
  else best1

/-- `Sheet.try_add_panel`: enumerate (down-sampled) candidate positions and
return the best `(success, x, y, rotated)`. -/
def Sheet.try_add_panel (kerf : ℚ) (s : Sheet) (panel : Panel) : Bool × ℚ × ℚ × Bool :=
  let positions := samplePositions (s.get_candidate_positions kerf)
  match positions.foldl (tryStep kerf s panel) none with
  | some (_, x, y, rot) => (true, x, y, rot)
  | none => (false, 0, 0, false)

/-- `Sheet.add`: on success rotate the panel if required and place it.  The
returned panel is the (possibly rotated) object actually recorded on the
sheet. -/
def Sheet.add (kerf : ℚ) (s : Sheet) (panel : Panel) : Bool × Sheet × Panel :=
  let r := s.try_add_panel kerf panel
  if r.1 then
    let p' := if r.2.2.2 then panel.rotate else panel
    (true, s.place kerf p' r.2.1 r.2.2.1, p')
  else (false, s, panel)

/-- The sheet states reachable by repeatedly placing panels at positions where
`Sheet.fits` returned `True` — exactly the placements `Sheet.add` performs
(`Sheet.add` only calls `place` with a position/orientation at which `fits`
succeeded; see `try_add_panel`).  Panels carry the positive dimensions the
input validation guarantees. -/
inductive Reachable (kerf : ℚ) : Sheet → Prop where
  | init (w h : ℚ) (type_id : ℕ) (avg : Option ℚ) (hw : 0 < w) (hh : 0 < h) :
      Reachable kerf (Sheet.make w h type_id avg)
  | step {s : Sheet} (panel : Panel) (x y : ℚ) (hs : Reachable kerf s)
      (hpw : 0 < panel.w) (hph : 0 < panel.h)
      (hf : s.fits kerf panel x y = true) :
      Reachable kerf (s.place kerf panel x y)

/-- Overlap of the kerf-inclusive footprints of two placed panels. -/
def tripleOverlap (kerf : ℚ) (t u : Panel × ℚ × ℚ) : Prop :=
  overlapQ t.2.1 t.2.2 (t.1.get_placed_width kerf) (t.1.get_placed_height kerf)
    u.2.1 u.2.2 (u.1.get_placed_width kerf) (u.1.get_placed_height kerf)

/-- Invariant carried by every reachable sheet state. -/
structure SheetInv (kerf : ℚ) (s : Sheet) : Prop where
  pos_w : 0 < s.w
  pos_h : 0 < s.h
  cols_pos : 1 ≤ s.grid_cols
  rows_pos : 1 ≤ s.grid_rows
  cellw_def : s.cell_w = s.w / (s.grid_cols : ℚ)
  cellh_def : s.cell_h = s.h / (s.grid_rows : ℚ)
  ppos : ∀ t ∈ s.panels, 0 < t.1.w ∧ 0 < t.1.h
  gsound : ∀ r c, ∀ idx ∈ s.grid r c, idx < s.panels.length
  gcomplete : ∀ (i : ℕ) (hi : i < s.panels.length),
    ∀ rc ∈ s.get_grid_cells (s.panels[i].2.1) (s.panels[i].2.2)
        (s.panels[i].1.get_placed_width kerf) (s.panels[i].1.get_placed_height kerf),
      i ∈ s.grid rc.1 rc.2
  bounds : ∀ t ∈ s.panels, -eps ≤ t.2.1 ∧ -eps ≤ t.2.2 ∧
    t.2.1 + t.1.get_placed_width kerf ≤ s.w + eps ∧
    t.2.2 + t.1.get_placed_height kerf ≤ s.h + eps
  nooverlap : s.panels.Pairwise fun t u => ¬ tripleOverlap kerf t u
  filled : s.filled_area =
    (s.panels.map fun t => t.1.get_placed_width kerf * t.1.get_placed_height kerf).sum

/-- Diagnostics the driver prints (`print(...)` calls of `nest_panels`). -/
inductive Diag where
  | tooManyIterations
  | newSheetFailed
  | unplaceable (id : ℕ)
deriving DecidableEq

/-- Result of `nest_panels`: the produced sheets, the final value of the
`iteration` counter, and the diagnostics printed along the way. -/
structure NestResult where
  sheets : List Sheet
  iterations : ℕ
  diags : List Diag

/-- The inner loop `for i, panel in enumerate(remaining): if i not in
placed_indices: ...` of one sheet in `nest_panels`, phase 1 (and also the
filling loop of a freshly created sheet).  Entries are `(panel, placed?)`
pairs; a successful `add` replaces the entry by the placed copy and marks it,
and the loop breaks early when the sheet crosses the efficiency threshold. -/
def sheetPass (kerf : ℚ) (s : Sheet) : List (Panel × Bool) → Sheet × List (Panel × Bool)
  | [] => (s, [])
  | (p, placed) :: rest =>
    if placed then
      let r := sheetPass kerf s rest
      (r.1, (p, placed) :: r.2)
    else
      let a := s.add kerf p.copy
      if a.1 then
        if a.2.1.should_stop_adding then (a.2.1, (a.2.2, true) :: rest)
        else
          let r := sheetPass kerf a.2.1 rest
          (r.1, (a.2.2, true) :: r.2)
      else
        let r := sheetPass kerf s rest
        (r.1, (p, false) :: r.2)

/-- Phase 1 of one driver iteration: `for sheet in sheets:` skipping sheets
past the `should_stop_adding` threshold. -/
def fillSheets (kerf : ℚ) : List Sheet → List (Panel × Bool) → List Sheet × List (Panel × Bool)
  | [], entries => ([], entries)
  | s :: ss, entries =>
    if s.should_stop_adding then
      let r := fillSheets kerf ss entries
      (s :: r.1, r.2)
    else
      let r1 := sheetPass kerf s entries
      let r2 := fillSheets kerf ss r1.2
      (r1.1 :: r2.1, r2.2)

/-- The trial loop of the configuration search: `try_add_panel` against a
fresh (never mutated — the Python code never calls `place` here) test sheet,
accumulating placed area and count with the `> 0.9` early exit. -/
def testConfig (kerf : ℚ) (ts : Sheet) (sheet_w sheet_h : ℚ) :
    List Panel → ℚ → ℕ → ℚ × ℕ
  | [], area, count => (area, count)
  | p :: rest, area, count =>
    let tp := p.copy
    if (ts.try_add_panel kerf tp).1 then
      let area' := area + tp.area
      let count' := count + 1
      if area' / (sheet_w * sheet_h) > 9 / 10 then (area', count')
      else testConfig kerf ts sheet_w sheet_h rest area' count'
    else testConfig kerf ts sheet_w sheet_h rest area count

/-- Score and comparison for one candidate configuration `(sheet_w, sheet_h,
type_id)`: `(fill_ratio * 2 + panel_ratio) * test_count` against the running
best (initially `-1`). -/
def scoreConfig (kerf : ℚ) (avg : ℚ) (remaining_len test_limit : ℕ)
    (testPanels : List Panel) (sheet_w sheet_h : ℚ) (type_id : ℕ)
    (best : ℚ × Option (ℚ × ℚ × ℕ)) : ℚ × Option (ℚ × ℚ × ℕ) :=
  let ts := Sheet.make sheet_w sheet_h type_id (some avg)
  let r := testConfig kerf ts sheet_w sheet_h testPanels 0 0
  if r.2 > 0 then
    let fill_ratio := r.1 / (sheet_w * sheet_h)
    let panel_ratio : ℚ := (r.2 : ℚ) / (max 1 (min remaining_len test_limit) : ℕ)
    let score := (fill_ratio * 2 + panel_ratio) * (r.2 : ℚ)
    if score > best.1 then (score, some (sheet_w, sheet_h, type_id)) else best
  else best

/-- The configuration search of `nest_panels`: every stock size in both
orientations (the square-dedup `continue` of the source never fires, since for
a square sheet `(w, h) == (sheet_w, sheet_h)` in both orientations; it is
transcribed anyway). -/
def chooseConfig (kerf : ℚ) (avg : ℚ) (sheet_sizes : List (ℚ × ℚ × ℕ))
    (remaining_len test_limit : ℕ) (testPanels : List Panel) : Option (ℚ × ℚ × ℕ) :=
  (sheet_sizes.foldl
    (fun best wht =>
      [(wht.1, wht.2.1), (wht.2.1, wht.1)].foldl
        (fun best' swh =>
          if swh.1 = swh.2 ∧ (wht.1, wht.2.1) ≠ (swh.1, swh.2) then best'
          else scoreConfig kerf avg remaining_len test_limit testPanels
            swh.1 swh.2 wht.2.2 best')
        best)
    (-1, none)).2

/-- The last-resort loop: smallest stock (by area) that fits the panel,
unrotated first, then rotated; `add` may still fail (the dimension test
ignores the kerf), in which case the next stock size is tried. -/
def lastResort (kerf : ℚ) (avg : ℚ) (p : Panel) : List (ℚ × ℚ × ℕ) → Option Sheet
  | [] => none
  | (w, h, tid) :: rest =>
    if p.w ≤ w ∧ p.h ≤ h then
      let ns := Sheet.make w h tid (some avg)
      let a := ns.add kerf p.copy
      if a.1 then some a.2.1 else lastResort kerf avg p rest
    else if p.h ≤ w ∧ p.w ≤ h then
      let ns := Sheet.make w h tid (some avg)
      let a := ns.add kerf (p.copy).rotate
      if a.1 then some a.2.1 else lastResort kerf avg p rest
    else lastResort kerf avg p rest

/-- Stock-size order for the last resort: `sorted(sheet_sizes, key=lambda s:
s[0] * s[1])`. -/
def sizeAreaLe (a b : ℚ × ℚ × ℕ) : Prop := a.1 * a.2.1 ≤ b.1 * b.2.1

instance : DecidableRel sizeAreaLe := fun a b => by unfold sizeAreaLe; infer_instance

/-- One iteration of the `while remaining:` loop of `nest_panels`: phase 1
over the open sheets, then either plain success (`if not remaining: break`),
or a new sheet from the best configuration, or the last resort.  Returns the
updated sheets and remaining list, whether the loop `break`s, and the
diagnostics printed. -/
def nestBody (kerf : ℚ) (avg : ℚ) (sheet_sizes : List (ℚ × ℚ × ℕ))
    (sheets : List Sheet) (remaining : List Panel) :
    List Sheet × List Panel × Bool × List Diag :=
  let r1 := fillSheets kerf sheets (remaining.map fun p => (p, false))
  let remaining1 := (r1.2.filter fun e => !e.2).map Prod.fst
  match remaining1 with
  | [] => (r1.1, [], true, [])
  | p :: rest =>
    let test_limit := min remaining1.length (if remaining1.length > 50 then 20
      else remaining1.length)
    match chooseConfig kerf avg sheet_sizes remaining1.length test_limit
        (remaining1.take test_limit) with
    | some (sheet_w, sheet_h, type_id) =>
      let ns := Sheet.make sheet_w sheet_h type_id (some avg)
      let r2 := sheetPass kerf ns (remaining1.map fun q => (q, false))
      let remaining2 := (r2.2.filter fun e => !e.2).map Prod.fst
      if r2.2.any fun e => e.2 then (r1.1 ++ [r2.1], remaining2, false, [])
      else (r1.1, remaining1, true, [.newSheetFailed])
    | none =>
      match lastResort kerf avg p (List.insertionSort sizeAreaLe sheet_sizes) with
      | some ns => (r1.1 ++ [ns], rest, false, [])
      | none => (r1.1, rest, false, [.unplaceable p.id])

/-- The `while remaining:` loop of `nest_panels` with its end-of-body safety
check `if iteration > len(panels) * 2: break`.  The recursion is justified by
that very check: the loop cannot run more than `cap + 1` times. -/
def nestLoop (kerf : ℚ) (avg : ℚ) (sheet_sizes : List (ℚ × ℚ × ℕ)) (cap : ℕ)
    (sheets : List Sheet) (remaining : List Panel) (iteration : ℕ) (diags : List Diag) :
    NestResult :=
  match remaining with
  | [] => ⟨sheets, iteration, diags⟩
  | _ :: _ =>
    let r := nestBody kerf avg sheet_sizes sheets remaining
    if r.2.2.1 then ⟨r.1, iteration + 1, diags ++ r.2.2.2⟩
    else if iteration + 1 > cap then
      ⟨r.1, iteration + 1, diags ++ r.2.2.2 ++ [.tooManyIterations]⟩
    else nestLoop kerf avg sheet_sizes cap r.1 r.2.1 (iteration + 1) (diags ++ r.2.2.2)
termination_by cap + 1 - iteration
decreasing_by
  rename_i hstop hcap
  omega

/-- Panel order of the hybrid driver: `sorted(panels, key=lambda p: (p.h,
p.w), reverse=True)` — a stable descending sort by `(h, w)`. -/
def panelSortGe (a b : Panel) : Prop := b.h < a.h ∨ (b.h = a.h ∧ b.w ≤ a.w)

instance : DecidableRel panelSortGe := fun a b => by unfold panelSortGe; infer_instance

/-- `nest_panels(panels, sheet_sizes)`.  The Python driver derives
`avg_panel_size` as the square root of the mean panel area; the square root of
a rational is not rational, so the model takes `avg` as an explicit input and
every theorem below holds for all of its values (the grid resolution derived
from it never changes which placements are accepted). -/
def nest_panels (kerf : ℚ) (avg : ℚ) (panels : List Panel)
    (sheet_sizes : List (ℚ × ℚ × ℕ)) : NestResult :=
  match panels with
  | [] => ⟨[], 0, []⟩
  | _ :: _ =>
    let sorted := List.insertionSort panelSortGe panels
    nestLoop kerf avg sheet_sizes (panels.length * 2) [] sorted 0 []

end Hybrid

namespace Planar

/-- `PlanarPanel` of the planar engine (`optimized_nesting_planar.py`): the
bounding-box dimensions `w`/`h`, the exact area computed from the boundary at
construction, the rotation state, and the polyline of boundary points used by
the collision test.  The Rhino curve/bbox objects and the placed-dimension
caches carry no further observable state for the engine. -/
structure PlanarPanel where
  w : ℚ
  h : ℚ
  area : ℚ
  rotation_angle : ℕ
  rotated : Bool
  boundary_points : List (ℚ × ℚ)
  id : ℕ
deriving DecidableEq

/-- `PlanarPanel.rotate`: advance the rotation angle by 90° mod 360, set the
rotation flag from the angle, swap the bounding-box dimensions (the source
swaps `w`/`h` and does not recompute them from the new bounding box), and
rotate the boundary points by 90° about the origin
(`(x, y) ↦ (-y, x)`). -/
def PlanarPanel.rotate (p : PlanarPanel) : PlanarPanel :=
  let angle := (p.rotation_angle + 90) % 360
  { p with rotation_angle := angle,
           rotated := decide (angle ≠ 0),
           w := p.h, h := p.w,
           boundary_points := p.boundary_points.map fun q => (-q.2, q.1) }

/-- `PlanarPanel.get_placed_width`. -/
def PlanarPanel.get_placed_width (kerf : ℚ) (p : PlanarPanel) : ℚ := p.w + kerf

/-- `PlanarPanel.get_placed_height`. -/
def PlanarPanel.get_placed_height (kerf : ℚ) (p : PlanarPanel) : ℚ := p.h + kerf

/-- `PlanarPanel.get_transformed_boundary_points`: translate to the placement
position. -/
def PlanarPanel.get_transformed_boundary_points (p : PlanarPanel) (x y : ℚ) :
    List (ℚ × ℚ) :=
  p.boundary_points.map fun q => (q.1 + x, q.2 + y)

/-- `Sheet._point_in_polygon`: the ray-casting loop.  The edge list
`(poly[0], poly[1]), ..., (poly[n-1], poly[0])` is `poly.zip (poly.rotate 1)`;
inside the guard the two endpoints always differ in `y`, so the interpolated
`xinters` is well defined (rational division is total anyway). -/
def point_in_polygon (pt : ℚ × ℚ) (poly : List (ℚ × ℚ)) : Bool :=
  (poly.zip (poly.rotate 1)).foldl
    (fun inside e =>
      let p1 := e.1
      let p2 := e.2
      if pt.2 > min p1.2 p2.2 ∧ pt.2 ≤ max p1.2 p2.2 ∧ pt.1 ≤ max p1.1 p2.1 then
        if p1.1 = p2.1 ∨ pt.1 ≤ (pt.2 - p1.2) * (p2.1 - p1.1) / (p2.2 - p1.2) + p1.1 then
          !inside
        else inside
      else inside)
    false

/-- `ccw` of `Sheet._line_segments_intersect`. -/
def ccw (A B C : ℚ × ℚ) : Bool :=
  decide ((C.2 - A.2) * (B.1 - A.1) > (B.2 - A.2) * (C.1 - A.1))

/-- `Sheet._line_segments_intersect`. -/
def line_segments_intersect (p1 p2 p3 p4 : ℚ × ℚ) : Bool :=
  (ccw p1 p3 p4 != ccw p2 p3 p4) && (ccw p1 p2 p3 != ccw p1 p2 p4)

/-- The sampled edge list of `Sheet._edges_intersect`: indices
`range(0, n, step)` with `step = max(1, n // 20)`, each paired with its
successor modulo `n`. -/
def sampledEdges (poly : List (ℚ × ℚ)) : List ((ℚ × ℚ) × (ℚ × ℚ)) :=
  let n := poly.length
  let step := max 1 (n / 20)
  ((List.range n).filter fun i => i % step == 0).map fun i =>
    (poly.getD i (0, 0), poly.getD ((i + 1) % n) (0, 0))

/-- `Sheet._edges_intersect`: pairwise test of the sampled edges. -/
def edges_intersect (poly1 poly2 : List (ℚ × ℚ)) : Bool :=
  (sampledEdges poly1).any fun e1 =>
    (sampledEdges poly2).any fun e2 =>
      line_segments_intersect e1.1 e1.2 e2.1 e2.2

/-- `Sheet._check_polygon_collision`: point-in-polygon on the first five
points of each boundary, then sampled edge intersection. -/
def check_polygon_collision (panel1_points panel2_points : List (ℚ × ℚ)) : Bool :=
  ((panel1_points.take 5).any fun pt => point_in_polygon pt panel2_points) ||
  ((panel2_points.take 5).any fun pt => point_in_polygon pt panel1_points) ||
  edges_intersect panel1_points panel2_points

/-- `Sheet` of the planar engine.  Identical bookkeeping to the hybrid sheet
except that panels are shape-bearing. -/
structure Sheet where
  orig_w : ℚ
  orig_h : ℚ
  w : ℚ
  h : ℚ
  panels : List (PlanarPanel × ℚ × ℚ)
  type_id : ℕ
  filled_area : ℚ
  grid_cols : ℕ
  grid_rows : ℕ
  cell_w : ℚ
  cell_h : ℚ
  grid : ℕ → ℕ → List ℕ
  skyline : List (ℚ × ℚ × ℚ)
  free_rects : List Hybrid.FreeRectangle

/-- `Sheet.__init__` of the planar engine (same grid sizing as the hybrid
engine). -/
def Sheet.make (w h : ℚ) (type_id : ℕ) (avg_panel_size : Option ℚ) : Sheet :=
  let grid_cols : ℕ := match avg_panel_size with
    | some a => (max 5 (min 50 (pyInt (w / (a * 5))))).toNat
    | none => 20
  let grid_rows : ℕ := match avg_panel_size with
    | some a => (max 5 (min 50 (pyInt (h / (a * 5))))).toNat
    | none => 20
  { orig_w := w, orig_h := h, w := w, h := h, panels := [], type_id := type_id,
    filled_area := 0, grid_cols := grid_cols, grid_rows := grid_rows,
    cell_w := w / grid_cols, cell_h := h / grid_rows,
    grid := fun _ _ => [], skyline := [(0, 0, w)],
    free_rects := [⟨0, 0, w, h⟩] }

/-- `Sheet._get_grid_cells` of the planar engine. -/
def Sheet.get_grid_cells (s : Sheet) (x y w h : ℚ) : List (ℕ × ℕ) :=
  gridCellsOf s.grid_cols s.grid_rows s.cell_w s.cell_h x y w h

/-- `Sheet.fits` of the planar engine: epsilon-tolerant bounds check, then for
each grid-registered panel a bounding-box pre-check followed — only when the
boxes overlap — by the exact (sampled) polygon collision test. -/
def Sheet.fits (kerf : ℚ) (s : Sheet) (panel : PlanarPanel) (x y : ℚ) : Bool :=
  let pw := panel.get_placed_width kerf
  let ph := panel.get_placed_height kerf
  if x + pw > s.w + eps ∨ y + ph > s.h + eps ∨ x < -eps ∨ y < -eps then false
  else
    let panel_points := panel.get_transformed_boundary_points x y
    !((s.get_grid_cells x y pw ph).any fun rc =>
      (s.grid rc.1 rc.2).any fun panel_idx =>
        match s.panels[panel_idx]? with
        | some (p, px, py) =>
            rectsOverlap x y pw ph px py (p.get_placed_width kerf) (p.get_placed_height kerf)
              && check_polygon_collision panel_points
                (p.get_transformed_boundary_points px py)
        | none => false)

/-- `Sheet.place` of the planar engine: as the hybrid `place`, but the
filled-area accumulator receives the panel's exact polygon area
(`self.filled_area += panel.area`). -/
def Sheet.place (kerf : ℚ) (s : Sheet) (panel : PlanarPanel) (x y : ℚ) : Sheet :=
  let panel_idx := s.panels.length
  let pw := panel.get_placed_width kerf
  let ph := panel.get_placed_height kerf
  let cells := s.get_grid_cells x y pw ph
  { s with
    panels := s.panels ++ [(panel, x, y)],
    grid := fun r c => if (r, c) ∈ cells then s.grid r c ++ [panel_idx] else s.grid r c,
    filled_area := s.filled_area + panel.area,
    skyline := Hybrid.update_skyline s.skyline x y pw ph,
    free_rects := Hybrid.update_free_rects s.free_rects x y pw ph }

/-- Sheet states of the planar engine reachable through fits-gated placements
(the placements `Sheet.add` performs). -/
inductive Reachable (kerf : ℚ) : Sheet → Prop where
  | init (w h : ℚ) (type_id : ℕ) (avg : Option ℚ) (hw : 0 < w) (hh : 0 < h) :
      Reachable kerf (Sheet.make w h type_id avg)
  | step {s : Sheet} (panel : PlanarPanel) (x y : ℚ) (hs : Reachable kerf s)
      (hpw : 0 < panel.w) (hph : 0 < panel.h)
      (hf : s.fits kerf panel x y = true) :
      Reachable kerf (s.place kerf panel x y)

end Planar

namespace BeamSaw

/-- `RotationConstraint` of the beam-saw test script. -/
inductive RotationConstraint where
  | no_rotation
  | rotation_90_allowed
deriving DecidableEq

/-- `PanelGrainDirection`. -/
inductive PanelGrainDirection where
  | match_sheet
  | fixed_horizontal
  | fixed_vertical
deriving DecidableEq

/-- `SheetGrainDirection`. -/
inductive SheetGrainDirection where
  | horizontal
  | vertical
deriving DecidableEq

/-- `CutOrientation`. -/
inductive CutOrientation where
  | horizontal
  | vertical
deriving DecidableEq

/-- `PanelSortStrategy`. -/
inductive PanelSortStrategy where
  | largest_first
  | smallest_first
  | area_descending
  | area_ascending
deriving DecidableEq

/-- `Panel` dataclass of the beam-saw variant. -/
structure Panel where
  width : ℚ
  height : ℚ
  rotation_constraint : RotationConstraint
  grain_direction : PanelGrainDirection
  id : ℕ
  tag : String
deriving DecidableEq

/-- `Panel.area`. -/
def Panel.area (p : Panel) : ℚ := p.width * p.height

/-- `Panel.max_dimension`. -/
def Panel.max_dimension (p : Panel) : ℚ := max p.width p.height

/-- `Panel.min_dimension`. -/
def Panel.min_dimension (p : Panel) : ℚ := min p.width p.height

/-- `PlacedPanel` dataclass. -/
structure PlacedPanel where
  panel : Panel
  x : ℚ
  y : ℚ
  width : ℚ
  height : ℚ
  rotation_degrees : ℕ
  final_grain_direction : String
  sheet_index : ℕ
deriving DecidableEq

/-- `SubSheet` dataclass; `parent_cut_id` is an integer because the root
sub-sheet uses `-1`. -/
structure SubSheet where
  x : ℚ
  y : ℚ
  width : ℚ
  height : ℚ
  level : ℕ
  parent_cut_id : ℤ
  sheet_index : ℕ
deriving DecidableEq

/-- `SubSheet.area`. -/
def SubSheet.area (s : SubSheet) : ℚ := s.width * s.height

/-- `SubSheet.can_fit`: dimension check with the `1e-6` tolerance. -/
def SubSheet.can_fit (s : SubSheet) (panel_width panel_height : ℚ) : Bool :=
  decide (panel_width ≤ s.width + eps ∧ panel_height ≤ s.height + eps)

/-- `CutLine` dataclass (`end` is a Lean keyword, rendered `end_`). -/
structure CutLine where
  id : ℕ
  orientation : CutOrientation
  position : ℚ
  start : ℚ
  end_ : ℚ
  kerf_thickness : ℚ
  sheet_index : ℕ
deriving DecidableEq

/-- `PanelPlacement` dataclass. -/
structure PanelPlacement where
  panel : Panel
  sub_sheet : SubSheet
  rotated : Bool
  width : ℚ
  height : ℚ
  final_grain_direction : String
deriving DecidableEq

/-- `BeamSawNestingAlgorithm`: configuration plus mutable state. -/
structure Algo where
  sheet_width : ℚ
  sheet_height : ℚ
  sheet_grain : SheetGrainDirection
  kerf_thickness : ℚ
  preferred_cut_orientation : CutOrientation
  sort_strategy : PanelSortStrategy
  placed_panels : List PlacedPanel
  remaining_sub_sheets : List SubSheet
  cut_lines : List CutLine
  current_sheet_index : ℕ
  next_cut_id : ℕ
deriving DecidableEq

/-- `BeamSawNestingAlgorithm.__init__`. -/
def Algo.make (sheet_width sheet_height : ℚ) (sheet_grain : SheetGrainDirection)
    (kerf_thickness : ℚ) (preferred_cut : CutOrientation)
    (sort_strategy : PanelSortStrategy) : Algo :=
  { sheet_width := sheet_width, sheet_height := sheet_height,
    sheet_grain := sheet_grain, kerf_thickness := kerf_thickness,
    preferred_cut_orientation := preferred_cut, sort_strategy := sort_strategy,
    placed_panels := [], remaining_sub_sheets := [], cut_lines := [],
    current_sheet_index := 0, next_cut_id := 0 }

/-- `_validate_grain_direction`: the effective orientation is horizontal iff
the placed width (after the optional rotation) is at least the placed height;
it must agree with the configured constraint or the placement is rejected
(`None`). -/
def Algo.validate_grain_direction (a : Algo) (p : Panel) (rotated : Bool) :
    Option String :=
  let is_horizontal :=
    (!rotated && decide (p.width ≥ p.height)) || (rotated && decide (p.height ≥ p.width))
  match p.grain_direction with
  | .match_sheet =>
    match a.sheet_grain with
    | .horizontal => if is_horizontal then some "Horizontal" else none
    | .vertical => if is_horizontal then none else some "Vertical"
  | .fixed_horizontal => if is_horizontal then some "Horizontal" else none
  | .fixed_vertical => if is_horizontal then none else some "Vertical"

/-- `_can_place_panel_in_sub_sheet`: dimension check, then grain validation. -/
def Algo.can_place_panel_in_sub_sheet (a : Algo) (p : Panel) (s : SubSheet)
    (rotate : Bool) : Option PanelPlacement :=
  let panel_w := if rotate then p.height else p.width
  let panel_h := if rotate then p.width else p.height
  if s.can_fit panel_w panel_h then
    match a.validate_grain_direction p rotate with
    | some g => some ⟨p, s, rotate, panel_w, panel_h, g⟩
    | none => none
  else none

/-- `_perform_guillotine_cut`: choose the first cut direction (larger residual
dimension first, preferred orientation on a tie within `1e-6`), then emit up
to two cut lines and residual sub-sheets. -/
def Algo.perform_guillotine_cut (a : Algo) (sub : SubSheet) (used_width used_height : ℚ) :
    Algo :=
  let remaining_width := sub.width - used_width - a.kerf_thickness
  let remaining_height := sub.height - used_height - a.kerf_thickness
  let cut_horizontal_first :=
    if |remaining_width - remaining_height| > eps then
      decide (remaining_height > remaining_width)
    else decide (a.preferred_cut_orientation = .horizontal)
  if cut_horizontal_first then
    let a1 :=
      if remaining_height > eps then
        let cut_y := sub.y + used_height
        let h_cut : CutLine := ⟨a.next_cut_id, .horizontal, cut_y, sub.x,
          sub.x + sub.width, a.kerf_thickness, sub.sheet_index⟩
        { a with cut_lines := a.cut_lines ++ [h_cut],
                 next_cut_id := a.next_cut_id + 1,
                 remaining_sub_sheets := a.remaining_sub_sheets ++
                   [⟨sub.x, cut_y + a.kerf_thickness, sub.width, remaining_height,
                     sub.level + 1, (h_cut.id : ℤ), sub.sheet_index⟩] }
      else a
    if remaining_width > eps then
      let cut_x := sub.x + used_width
      let v_cut : CutLine := ⟨a1.next_cut_id, .vertical, cut_x, sub.y,
        sub.y + used_height, a1.kerf_thickness, sub.sheet_index⟩
      { a1 with cut_lines := a1.cut_lines ++ [v_cut],
                next_cut_id := a1.next_cut_id + 1,
                remaining_sub_sheets := a1.remaining_sub_sheets ++
                  [⟨cut_x + a1.kerf_thickness, sub.y, remaining_width, used_height,
                    sub.level + 1, (v_cut.id : ℤ), sub.sheet_index⟩] }
    else a1
  else
    let a1 :=
      if remaining_width > eps then
        let cut_x := sub.x + used_width
        let v_cut : CutLine := ⟨a.next_cut_id, .vertical, cut_x, sub.y,
          sub.y + sub.height, a.kerf_thickness, sub.sheet_index⟩
        { a with cut_lines := a.cut_lines ++ [v_cut],
                 next_cut_id := a.next_cut_id + 1,
                 remaining_sub_sheets := a.remaining_sub_sheets ++
                   [⟨cut_x + a.kerf_thickness, sub.y, remaining_width, sub.height,
                     sub.level + 1, (v_cut.id : ℤ), sub.sheet_index⟩] }
      else a
    if remaining_height > eps then
      let cut_y := sub.y + used_height
      let h_cut : CutLine := ⟨a1.next_cut_id, .horizontal, cut_y, sub.x,
        sub.x + used_width, a1.kerf_thickness, sub.sheet_index⟩
      { a1 with cut_lines := a1.cut_lines ++ [h_cut],
                next_cut_id := a1.next_cut_id + 1,
                remaining_sub_sheets := a1.remaining_sub_sheets ++
                  [⟨sub.x, cut_y + a1.kerf_thickness, used_width, remaining_height,
                    sub.level + 1, (h_cut.id : ℤ), sub.sheet_index⟩] }
    else a1

/-- `_place_panel`: record the placement, remove the sub-sheet (Python
`list.remove` drops the first equal element, as `List.erase` does), and cut. -/
def Algo.place_panel (a : Algo) (p : Panel) (sub : SubSheet) (pl : PanelPlacement) : Algo :=
  let placed : PlacedPanel := ⟨p, sub.x, sub.y, pl.width, pl.height,
    if pl.rotated then 90 else 0, pl.final_grain_direction, sub.sheet_index⟩
  let a1 := { a with placed_panels := a.placed_panels ++ [placed],
                     remaining_sub_sheets := a.remaining_sub_sheets.erase sub }
  a1.perform_guillotine_cut sub pl.width pl.height

/-- The per-sub-sheet trial of `_try_place_panel`: unrotated first, then — if
rotation is allowed — rotated. -/
def Algo.try_in_sub_sheet (a : Algo) (p : Panel) (s : SubSheet) : Option PanelPlacement :=
  match a.can_place_panel_in_sub_sheet p s false with
  | some pl => some pl
  | none =>
    if p.rotation_constraint = .rotation_90_allowed then
      a.can_place_panel_in_sub_sheet p s true
    else none

/-- Sub-sheet order of `_try_place_panel`: `sorted(..., key=lambda s: s.area)`. -/
def subAreaLe (s1 s2 : SubSheet) : Prop := s1.area ≤ s2.area

instance : DecidableRel subAreaLe := fun a b => by unfold subAreaLe; infer_instance

/-- The loop of `_try_place_panel` over the area-sorted candidate sub-sheets:
the first accepted placement is committed. -/
def tryPlaceAux (a : Algo) (p : Panel) : List SubSheet → Bool × Algo
  | [] => (false, a)
  | s :: rest =>
    match a.try_in_sub_sheet p s with
    | some pl => (true, a.place_panel p s pl)
    | none => tryPlaceAux a p rest

/-- `_try_place_panel`: smallest-area-first over the current sheet's
sub-sheets. -/
def Algo.try_place_panel (a : Algo) (p : Panel) : Bool × Algo :=
  let current := a.remaining_sub_sheets.filter fun s =>
    decide (s.sheet_index = a.current_sheet_index)
  tryPlaceAux a p (List.insertionSort subAreaLe current)

/-- `_add_new_sheet`. -/
def Algo.add_new_sheet (a : Algo) : Algo :=
  let idx := if a.remaining_sub_sheets.length > 0 ∨ a.placed_panels.length > 0
    then a.current_sheet_index + 1 else a.current_sheet_index
  { a with current_sheet_index := idx,
           remaining_sub_sheets := a.remaining_sub_sheets ++
             [⟨0, 0, a.sheet_width, a.sheet_height, 0, -1, idx⟩] }

/-- `_sort_panels`: the four strategies; descending sorts are Python's stable
`reverse=True` sorts. -/
def Algo.sort_panels (a : Algo) (panels : List Panel) : List Panel :=
  match a.sort_strategy with
  | .largest_first =>
    List.insertionSort (fun p q => q.max_dimension ≤ p.max_dimension) panels
  | .smallest_first =>
    List.insertionSort (fun p q => p.max_dimension ≤ q.max_dimension) panels
  | .area_descending => List.insertionSort (fun p q => q.area ≤ p.area) panels
  | .area_ascending => List.insertionSort (fun p q => p.area ≤ q.area) panels

/-- The per-panel step of `nest`: try the current sheet, else open a new sheet
and retry (an ultimate failure only prints a warning and keeps the freshly
opened sheet). -/
def nestStep (a : Algo) (p : Panel) : Algo :=
  let r := a.try_place_panel p
  if r.1 then r.2
  else
    let a2 := a.add_new_sheet
    let r2 := a2.try_place_panel p
    if r2.1 then r2.2 else a2

/-- `BeamSawNestingAlgorithm.nest`. -/
def Algo.nest (a : Algo) (panels : List Panel) : Algo :=
  (a.sort_panels panels).foldl nestStep a.add_new_sheet

end BeamSaw

namespace Hybrid

instance : IsTotal (ℚ × ℚ × ℚ) segLe := by
  constructor
  intro a b
  unfold segLe
  rcases lt_trichotomy a.2.1 b.2.1 with h | h | h
  · exact Or.inl (Or.inl h)
  · rcases le_total a.1 b.1 with h' | h'
    · exact Or.inl (Or.inr ⟨h, h'⟩)
    · exact Or.inr (Or.inr ⟨h.symm, h'⟩)
  · exact Or.inr (Or.inl h)

instance : IsTrans (ℚ × ℚ × ℚ) segLe := by
  constructor
  intro a b c hab hbc
  unfold segLe at *
  rcases hab with h1 | ⟨h1, h1'⟩ <;> rcases hbc with h2 | ⟨h2, h2'⟩
  · exact Or.inl (h1.trans h2)
  · exact Or.inl (h2 ▸ h1)
  · exact Or.inl (h1 ▸ h2)
  · exact Or.inr ⟨h1.trans h2, h1'.trans h2'⟩

end Hybrid

/-- A 10×10 stock sheet with default grid resolution. -/
def sheetDemo : Hybrid.Sheet := Hybrid.Sheet.make 10 10 0 none

/-- A panel a hair wider than the sheet, but within the epsilon tolerance. -/
def panelWide : Hybrid.Panel := Hybrid.Panel.make (10 + 1 / 2000000) 1 0

/-- Demonstration panels. -/
def panelA : Hybrid.Panel := Hybrid.Panel.make 4 4 0

/-- Second demonstration panel. -/
def panelB : Hybrid.Panel := Hybrid.Panel.make 4 4 1

/-- A sheet with two disjoint placements. -/
def sheetDemo2 : Hybrid.Sheet := (sheetDemo.place 0 panelA 0 0).place 0 panelB 5 0

/-- A small demonstration panel. -/
def p23 : Hybrid.Panel := Hybrid.Panel.make 2 3 7

/-- A 100-segment skyline, all at height 0. -/
def skyDemo : List (ℚ × ℚ × ℚ) := (List.range 100).map fun i => ((i : ℚ), 0, 1)

/-- A right triangle filling the lower-left half of its 4×4 bounding box. -/
def triA : Planar.PlanarPanel :=
  { w := 4, h := 4, area := 8, rotation_angle := 0, rotated := false,
    boundary_points := [(0, 0), (4, 0), (0, 4)], id := 0 }

/-- A right triangle filling the upper-right half of its 4×4 bounding box. -/
def triB : Planar.PlanarPanel :=
  { w := 4, h := 4, area := 8, rotation_angle := 0, rotated := false,
    boundary_points := [(4, 0), (4, 4), (0, 4)], id := 1 }

/-- A 10×10 planar sheet. -/
def psheet0 : Planar.Sheet := Planar.Sheet.make 10 10 0 none

/-- The planar sheet after placing `triA` at the origin. -/
def psheet1 : Planar.Sheet := psheet0.place 0 triA 0 0

/-- The planar sheet after additionally placing `triB` at `(3, 3)`: its
bounding box overlaps `triA`'s, but the triangles themselves are disjoint, so
`fits` accepts the position. -/
def psheet2 : Planar.Sheet := psheet1.place 0 triB 3 3

/-- A panel too large for a 10×10 stock sheet. -/
def bigPanel : Hybrid.Panel := Hybrid.Panel.make 100 100 0

/-- The panel of the guillotine scenario. -/
def c5panel : BeamSaw.Panel := ⟨54, 40, .rotation_90_allowed, .match_sheet, 0, "P0"⟩

/-- The guillotine scenario: stock 240×120, kerf 5, horizontal sheet grain,
one 54×40 panel with match-sheet grain. -/
def c5demo : BeamSaw.Algo :=
  (BeamSaw.Algo.make 240 120 .horizontal 5 .horizontal .area_descending).nest [c5panel]

/-- A beam-saw configuration with horizontal sheet grain. -/
def grainAlgo : BeamSaw.Algo :=
  BeamSaw.Algo.make 240 120 .horizontal 5 .horizontal .area_descending

/-- A full-sheet sub-sheet. -/
def subDemo : BeamSaw.SubSheet := ⟨0, 0, 240, 120, 0, -1, 0⟩

/-- A portrait panel (effective orientation vertical). -/
def pVert : BeamSaw.Panel := ⟨30, 50, .rotation_90_allowed, .match_sheet, 1, "V"⟩

/-- A landscape panel (effective orientation horizontal). -/
def pHorz : BeamSaw.Panel := ⟨50, 30, .no_rotation, .match_sheet, 2, "H"⟩

/-- The unrotated placement of `pHorz` on `subDemo`. -/
def plHorz : BeamSaw.PanelPlacement := ⟨pHorz, subDemo, false, 50, 30, "Horizontal"⟩

/-- A unit free rectangle, duplicated in the pruning counterexample. -/
def rectDup : Hybrid.FreeRectangle := ⟨0, 0, 1, 1⟩

/-- A 3×5 rectangular panel. -/
def rpanel : Hybrid.Panel := Hybrid.Panel.make 3 5 9

lemma clampIdx_mono (n : ℕ) {v w : ℤ} (h : v ≤ w) : clampIdx n v ≤ clampIdx n w := by
  unfold clampIdx
  have h1 : max 0 (min ((n : ℤ) - 1) v) ≤ max 0 (min ((n : ℤ) - 1) w) := by omega
  omega

lemma clampIdx_lt (n : ℕ) (v : ℤ) (hn : 1 ≤ n) : clampIdx n v < n := by
  unfold clampIdx
  omega

lemma mem_gridCellsOf {cols rows : ℕ} {cw ch x y w h : ℚ} {r c : ℕ} :
    (r, c) ∈ gridCellsOf cols rows cw ch x y w h ↔
      (clampIdx rows ⌊y / ch⌋ ≤ r ∧ r ≤ clampIdx rows ⌈(y + h) / ch⌉ ∧
       clampIdx cols ⌊x / cw⌋ ≤ c ∧ c ≤ clampIdx cols ⌈(x + w) / cw⌉ ∧
       r < rows ∧ c < cols) := by
  unfold gridCellsOf
  simp only [List.mem_flatMap, List.mem_filterMap, List.mem_range']
  constructor
  · rintro ⟨row, ⟨i, hi, rfl⟩, col, ⟨j, hj, rfl⟩, hite⟩
    split at hite
    · rename_i hrc
      obtain ⟨rfl, rfl⟩ := Prod.mk.injEq .. ▸ Option.some.injEq .. ▸ hite
      refine ⟨by omega, by omega, by omega, by omega, hrc.1, hrc.2⟩
    · exact absurd hite (by simp)
  · rintro ⟨h1, h2, h3, h4, h5, h6⟩
    refine ⟨r, ⟨r - clampIdx rows ⌊y / ch⌋, by omega, by omega⟩,
            c, ⟨c - clampIdx cols ⌊x / cw⌋, by omega, by omega⟩, ?_⟩
    rw [if_pos ⟨h5, h6⟩]

lemma overlapQ_symm {x y w h px py pw ph : ℚ} (hov : overlapQ x y w h px py pw ph) :
    overlapQ px py pw ph x y w h := by
  obtain ⟨h1, h2, h3, h4⟩ := hov
  exact ⟨h2, h1, h4, h3⟩

lemma rectsOverlap_iff {x y w h px py pw ph : ℚ} :
    rectsOverlap x y w h px py pw ph = true ↔ overlapQ x y w h px py pw ph := by
  unfold rectsOverlap overlapQ
  rw [decide_eq_true_iff]
  push_neg
  constructor
  · rintro ⟨h1, h2, h3, h4⟩
    exact ⟨by linarith, by linarith, by linarith, by linarith⟩
  · rintro ⟨h1, h2, h3, h4⟩
    exact ⟨by linarith, by linarith, by linarith, by linarith⟩

/-- If two positive-size rectangles overlap, their clamped grid-cell ranges
share a cell: the cell of any common interior point lies in both ranges. -/
lemma exists_common_cell {cols rows : ℕ} {cw ch : ℚ} (hcw : 0 < cw) (hch : 0 < ch)
    (hcols : 1 ≤ cols) (hrows : 1 ≤ rows)
    {x y w h a b wa ha : ℚ} (hw : 0 < w) (hh : 0 < h) (hwa : 0 < wa) (hha : 0 < ha)
    (hov : overlapQ x y w h a b wa ha) :
    ∃ rc : ℕ × ℕ, rc ∈ gridCellsOf cols rows cw ch x y w h ∧
      rc ∈ gridCellsOf cols rows cw ch a b wa ha := by
  obtain ⟨h1, h2, h3, h4⟩ := hov
  refine ⟨(clampIdx rows ⌊max y b / ch⌋, clampIdx cols ⌊max x a / cw⌋), ?_, ?_⟩ <;>
    rw [mem_gridCellsOf] <;>
    refine ⟨?_, ?_, ?_, ?_, clampIdx_lt _ _ hrows, clampIdx_lt _ _ hcols⟩
  · exact clampIdx_mono _ (Int.floor_le_floor (by gcongr; exact le_max_left _ _))
  · refine clampIdx_mono _ ((Int.floor_le_floor ?_).trans (Int.floor_le_ceil _))
    gcongr
    exact max_le (by linarith) (by linarith)
  · exact clampIdx_mono _ (Int.floor_le_floor (by gcongr; exact le_max_left _ _))
  · refine clampIdx_mono _ ((Int.floor_le_floor ?_).trans (Int.floor_le_ceil _))
    gcongr
    exact max_le (by linarith) (by linarith)
  · exact clampIdx_mono _ (Int.floor_le_floor (by gcongr; exact le_max_right _ _))
  · refine clampIdx_mono _ ((Int.floor_le_floor ?_).trans (Int.floor_le_ceil _))
    gcongr
    exact max_le (by linarith) (by linarith)
  · exact clampIdx_mono _ (Int.floor_le_floor (by gcongr; exact le_max_right _ _))
  · refine clampIdx_mono _ ((Int.floor_le_floor ?_).trans (Int.floor_le_ceil _))
    gcongr
    exact max_le (by linarith) (by linarith)

namespace Hybrid

lemma SheetInv.cellw_pos {kerf : ℚ} {s : Sheet} (inv : SheetInv kerf s) : 0 < s.cell_w := by
  rw [inv.cellw_def]
  have : (0 : ℚ) < (s.grid_cols : ℚ) := by
    exact_mod_cast Nat.lt_of_lt_of_le Nat.zero_lt_one inv.cols_pos
  exact div_pos inv.pos_w this

lemma SheetInv.cellh_pos {kerf : ℚ} {s : Sheet} (inv : SheetInv kerf s) : 0 < s.cell_h := by
  rw [inv.cellh_def]
  have : (0 : ℚ) < (s.grid_rows : ℚ) := by
    exact_mod_cast Nat.lt_of_lt_of_le Nat.zero_lt_one inv.rows_pos
  exact div_pos inv.pos_h this

/-- `fits = true` implies the epsilon-tolerant in-bounds conditions. -/
lemma fits_bounds {kerf : ℚ} {s : Sheet} {p : Panel} {x y : ℚ}
    (hf : s.fits kerf p x y = true) :
    x + p.get_placed_width kerf ≤ s.w + eps ∧ y + p.get_placed_height kerf ≤ s.h + eps ∧
      -eps ≤ x ∧ -eps ≤ y := by
  unfold Sheet.fits at hf
  simp only [] at hf
  split at hf
  · exact absurd hf (by simp)
  · rename_i hcond
    push_neg at hcond
    exact ⟨hcond.1, hcond.2.1, hcond.2.2.1, hcond.2.2.2⟩

/-- `fits = true` implies the collision scan over the spanned grid cells found
nothing. -/
lemma fits_scan_clear {kerf : ℚ} {s : Sheet} {p : Panel} {x y : ℚ}
    (hf : s.fits kerf p x y = true) :
    ∀ rc ∈ s.get_grid_cells x y (p.get_placed_width kerf) (p.get_placed_height kerf),
      ∀ idx ∈ s.grid rc.1 rc.2, ∀ q qx qy, s.panels[idx]? = some (q, qx, qy) →
        rectsOverlap x y (p.get_placed_width kerf) (p.get_placed_height kerf)
          qx qy (q.get_placed_width kerf) (q.get_placed_height kerf) = false := by
  unfold Sheet.fits at hf
  simp only [] at hf
  split at hf
  · exact absurd hf (by simp)
  · rw [Bool.not_eq_true', List.any_eq_false] at hf
    intro rc hrc idx hidx q qx qy hq
    have h1 := hf rc hrc
    rw [List.any_eq_true] at h1
    push_neg at h1
    have h2 := h1 idx hidx
    rw [hq] at h2
    simpa using h2

/-- On a sheet satisfying the invariant, `fits = true` means the candidate
footprint overlaps no placed panel: the grid scan cannot miss an overlapping
panel because any overlap yields a common grid cell in which the panel is
registered. -/
lemma fits_no_overlap {kerf : ℚ} {s : Sheet} {p : Panel} {x y : ℚ}
    (inv : SheetInv kerf s) (hk : 0 ≤ kerf) (hpw : 0 < p.w) (hph : 0 < p.h)
    (hf : s.fits kerf p x y = true) :
    ∀ t ∈ s.panels, ¬ overlapQ x y (p.get_placed_width kerf) (p.get_placed_height kerf)
      t.2.1 t.2.2 (t.1.get_placed_width kerf) (t.1.get_placed_height kerf) := by
  intro t ht hov
  obtain ⟨i, hi, hget⟩ := List.mem_iff_getElem.1 ht
  have htpos := inv.ppos t ht
  obtain ⟨rc, hrc1, hrc2⟩ := @exists_common_cell s.grid_cols s.grid_rows s.cell_w s.cell_h
    inv.cellw_pos inv.cellh_pos inv.cols_pos inv.rows_pos
    _ _ _ _ _ _ _ _
    (by unfold Panel.get_placed_width; linarith)
    (by unfold Panel.get_placed_height; linarith)
    (by unfold Panel.get_placed_width; linarith [htpos.1])
    (by unfold Panel.get_placed_height; linarith [htpos.2])
    hov
  have hmem : i ∈ s.grid rc.1 rc.2 := by
    have := inv.gcomplete i hi
    rw [hget] at this
    exact this rc hrc2
  have hclear := fits_scan_clear hf rc hrc1 i hmem t.1 t.2.1 t.2.2
    (by rw [List.getElem?_eq_getElem hi, hget])
  rw [rectsOverlap_iff.symm] at hov
  rw [hclear] at hov
  exact absurd hov (by simp)

/-- Conversely: in-bounds plus no overlap with any placed panel forces
`fits = true` (the scan only ever inspects valid panel indices). -/
lemma fits_of_no_overlap {kerf : ℚ} {s : Sheet} {p : Panel} {x y : ℚ}
    (inv : SheetInv kerf s)
    (hb : x + p.get_placed_width kerf ≤ s.w + eps ∧
      y + p.get_placed_height kerf ≤ s.h + eps ∧ -eps ≤ x ∧ -eps ≤ y)
    (hno : ∀ t ∈ s.panels, ¬ overlapQ x y (p.get_placed_width kerf) (p.get_placed_height kerf)
      t.2.1 t.2.2 (t.1.get_placed_width kerf) (t.1.get_placed_height kerf)) :
    s.fits kerf p x y = true := by
  unfold Sheet.fits
  rw [if_neg (by push_neg; exact ⟨not_lt.1 (by linarith [hb.1]), not_lt.1 (by linarith [hb.2.1]),
    hb.2.2.1, hb.2.2.2⟩)]
  rw [Bool.not_eq_true', List.any_eq_false]
  intro rc _
  simp only [List.any_eq_true, not_exists, not_and]
  intro idx hidx
  have hlen := inv.gsound rc.1 rc.2 idx hidx
  rw [List.getElem?_eq_getElem hlen]
  have hmem := List.getElem_mem hlen
  have := hno _ hmem
  rw [← rectsOverlap_iff] at this
  simpa using this

lemma place_panels (kerf : ℚ) (s : Sheet) (p : Panel) (x y : ℚ) :
    (s.place kerf p x y).panels = s.panels ++ [(p, x, y)] := rfl

lemma place_grid (kerf : ℚ) (s : Sheet) (p : Panel) (x y : ℚ) :
    (s.place kerf p x y).grid = fun r c =>
      if (r, c) ∈ s.get_grid_cells x y (p.get_placed_width kerf) (p.get_placed_height kerf)
      then s.grid r c ++ [s.panels.length] else s.grid r c := rfl

lemma inv_init {kerf w h : ℚ} {tid : ℕ} {avg : Option ℚ} (hw : 0 < w) (hh : 0 < h) :
    SheetInv kerf (Sheet.make w h tid avg) := by
  have hcols : 1 ≤ (Sheet.make w h tid avg).grid_cols := by
    cases avg <;> simp [Sheet.make] <;> omega
  have hrows : 1 ≤ (Sheet.make w h tid avg).grid_rows := by
    cases avg <;> simp [Sheet.make] <;> omega
  exact { pos_w := hw, pos_h := hh, cols_pos := hcols, rows_pos := hrows,
          cellw_def := rfl, cellh_def := rfl,
          ppos := by intro t ht; exact absurd ht (by simp [Sheet.make]),
          gsound := by intro r c idx hidx; exact absurd hidx (by simp [Sheet.make]),
          gcomplete := by intro i hi; exact absurd hi (by simp [Sheet.make]),
          bounds := by intro t ht; exact absurd ht (by simp [Sheet.make]),
          nooverlap := by simp [Sheet.make],
          filled := by simp [Sheet.make] }

lemma inv_place {kerf : ℚ} {s : Sheet} {p : Panel} {x y : ℚ}
    (inv : SheetInv kerf s) (hk : 0 ≤ kerf) (hpw : 0 < p.w) (hph : 0 < p.h)
    (hf : s.fits kerf p x y = true) : SheetInv kerf (s.place kerf p x y) := by
  have hb := fits_bounds hf
  have hno := fits_no_overlap inv hk hpw hph hf
  refine { pos_w := inv.pos_w, pos_h := inv.pos_h,
           cols_pos := inv.cols_pos, rows_pos := inv.rows_pos,
           cellw_def := inv.cellw_def, cellh_def := inv.cellh_def,
           ppos := ?_, gsound := ?_, gcomplete := ?_, bounds := ?_,
           nooverlap := ?_, filled := ?_ }
  · intro t ht
    rw [place_panels, List.mem_append] at ht
    rcases ht with ht | ht
    · exact inv.ppos t ht
    · simp only [List.mem_singleton] at ht
      subst ht
      exact ⟨hpw, hph⟩
  · intro r c idx hidx
    rw [place_grid] at hidx
    dsimp only at hidx
    simp only [place_panels, List.length_append, List.length_singleton]
    split at hidx
    · rcases List.mem_append.1 hidx with hold | hnew
      · exact Nat.lt_succ_of_lt (inv.gsound r c idx hold)
      · simp only [List.mem_singleton] at hnew
        omega
    · exact Nat.lt_succ_of_lt (inv.gsound r c idx hidx)
  · intro i hi rc hrc
    rw [place_panels, List.length_append, List.length_singleton] at hi
    rcases Nat.lt_succ_iff_lt_or_eq.1 hi with hi' | hi'
    · have hilt : i < (s.place kerf p x y).panels.length := by
        rw [place_panels]
        simp
        omega
      have hel : (s.place kerf p x y).panels[i] = s.panels[i] := by
        simp only [place_panels]
        exact List.getElem_append_left hi'
      rw [place_grid]
      have hrc' : rc ∈ s.get_grid_cells (s.panels[i].2.1) (s.panels[i].2.2)
          (s.panels[i].1.get_placed_width kerf) (s.panels[i].1.get_placed_height kerf) := by
        simp only [show (s.place kerf p x y).get_grid_cells = s.get_grid_cells from rfl,
          hel] at hrc
        exact hrc
      have hmem := inv.gcomplete i hi' rc hrc'
      dsimp only
      split
      · exact List.mem_append_left _ hmem
      · exact hmem
    · subst hi'
      have hilt : s.panels.length < (s.place kerf p x y).panels.length := by
        rw [place_panels]
        simp
      have hel : (s.place kerf p x y).panels[s.panels.length] = (p, x, y) := by
        simp only [place_panels]
        rw [List.getElem_append_right (le_refl _)]
        simp
      rw [place_grid]
      simp only [show (s.place kerf p x y).get_grid_cells = s.get_grid_cells from rfl,
        hel] at hrc
      have hrc' : (rc.1, rc.2) ∈ s.get_grid_cells x y
          (p.get_placed_width kerf) (p.get_placed_height kerf) := by
        simpa using hrc
      dsimp only
      rw [if_pos hrc']
      exact List.mem_append_right _ (by simp)
  · intro t ht
    rw [place_panels, List.mem_append] at ht
    rcases ht with ht | ht
    · exact inv.bounds t ht
    · simp only [List.mem_singleton] at ht
      subst ht
      exact ⟨hb.2.2.1, hb.2.2.2, hb.1, hb.2.1⟩
  · rw [place_panels, List.pairwise_append]
    refine ⟨inv.nooverlap, by simp, ?_⟩
    intro u hu t' ht'
    simp only [List.mem_singleton] at ht'
    subst ht'
    intro hov
    exact hno u hu (overlapQ_symm hov)
  · rw [place_panels]
    show s.filled_area + _ = _
    rw [inv.filled, List.map_append, List.sum_append]
    simp

/-- Every fits-gated reachable sheet satisfies the invariant. -/
lemma reachable_inv {kerf : ℚ} {s : Sheet} (hk : 0 ≤ kerf) (h : Reachable kerf s) :
    SheetInv kerf s := by
  induction h with
  | init w h tid avg hw hh => exact inv_init hw hh
  | step panel x y hs hpw hph hf ih => exact inv_place ih hk hpw hph hf

lemma update_skyline_eq_take (skyline : List (ℚ × ℚ × ℚ)) (x y w h : ℚ) :
    update_skyline skyline x y w h = (update_skyline_sorted skyline x y w h).take 100 := by
  unfold update_skyline
  dsimp only
  split
  · rfl
  · rename_i hlen
    rw [List.take_of_length_le (by omega)]

lemma update_skyline_sorted_pairwise (skyline : List (ℚ × ℚ × ℚ)) (x y w h : ℚ) :
    List.Pairwise segLe (update_skyline_sorted skyline x y w h) :=
  List.sorted_insertionSort segLe _

lemma update_skyline_pairwise (skyline : List (ℚ × ℚ × ℚ)) (x y w h : ℚ) :
    List.Pairwise segLe (update_skyline skyline x y w h) := by
  rw [update_skyline_eq_take]
  exact List.Pairwise.sublist (List.take_sublist _ _)
    (update_skyline_sorted_pairwise skyline x y w h)

lemma update_skyline_length_le (skyline : List (ℚ × ℚ × ℚ)) (x y w h : ℚ) :
    (update_skyline skyline x y w h).length ≤ 100 := by
  rw [update_skyline_eq_take]
  exact (List.length_take_le _ _).trans (le_refl _)

/-- The filled-area accumulator of the hybrid engine equals the sum of the
kerf-inclusive footprint areas of the placed panels. -/
lemma hybrid_filled {kerf : ℚ} {s : Sheet} (h : Reachable kerf s) :
    s.filled_area = (s.panels.map fun t =>
      t.1.get_placed_width kerf * t.1.get_placed_height kerf).sum := by
  induction h with
  | init w h tid avg hw hh => simp [Sheet.make]
  | step panel x y hs hpw hph hf ih =>
    show _ + _ = _
    rw [ih, place_panels, List.map_append, List.sum_append]
    simp

lemma considerCandidate_cases {best : Option (ℚ × ℚ × ℚ × Bool)} {w x y : ℚ} {rot : Bool}
    {q : ℚ × ℚ × ℚ × Bool} (h : considerCandidate best w x y rot = some q) :
    q = (w, x, y, rot) ∨ best = some q := by
  rcases best with _ | b
  · unfold considerCandidate at h
    exact Or.inl (Option.some.inj h).symm
  · unfold considerCandidate at h
    dsimp only at h
    split at h
    · exact Or.inl (Option.some.inj h).symm
    · exact Or.inr h

lemma tryStep_sound {kerf : ℚ} {s : Sheet} {panel : Panel}
    {best : Option (ℚ × ℚ × ℚ × Bool)} {pos : ℚ × ℚ}
    (hb : ∀ q, best = some q →
      s.fits kerf (if q.2.2.2 then panel.rotate else panel) q.2.1 q.2.2.1 = true) :
    ∀ q, tryStep kerf s panel best pos = some q →
      s.fits kerf (if q.2.2.2 then panel.rotate else panel) q.2.1 q.2.2.1 = true := by
  intro q hq
  unfold tryStep at hq
  dsimp only at hq
  have hb1 : ∀ q, (if s.fits kerf panel pos.1 pos.2 then
      considerCandidate best (pos.2 + panel.get_placed_height kerf) pos.1 pos.2 false
    else best) = some q →
      s.fits kerf (if q.2.2.2 then panel.rotate else panel) q.2.1 q.2.2.1 = true := by
    intro q' hq'
    split at hq'
    · rcases considerCandidate_cases hq' with rfl | h'
      · assumption
      · exact hb q' h'
    · exact hb q' hq'
  split at hq
  · rcases considerCandidate_cases hq with rfl | h'
    · assumption
    · exact hb1 q h'
  · exact hb1 q hq

lemma foldl_tryStep_sound {kerf : ℚ} {s : Sheet} {panel : Panel}
    (l : List (ℚ × ℚ)) (best : Option (ℚ × ℚ × ℚ × Bool))
    (hb : ∀ q, best = some q →
      s.fits kerf (if q.2.2.2 then panel.rotate else panel) q.2.1 q.2.2.1 = true) :
    ∀ q, l.foldl (tryStep kerf s panel) best = some q →
      s.fits kerf (if q.2.2.2 then panel.rotate else panel) q.2.1 q.2.2.1 = true := by
  induction l generalizing best with
  | nil => exact hb
  | cons a l ih => exact fun q hq => ih _ (tryStep_sound hb) q hq

/-- `try_add_panel` only reports positions at which `fits` succeeded for the
reported orientation. -/
lemma try_add_panel_fits {kerf : ℚ} {s : Sheet} {panel : Panel} {x y : ℚ} {rot : Bool}
    (h : s.try_add_panel kerf panel = (true, x, y, rot)) :
    s.fits kerf (if rot then panel.rotate else panel) x y = true := by
  unfold Sheet.try_add_panel at h
  dsimp only at h
  rcases hfold : (samplePositions (s.get_candidate_positions kerf)).foldl
      (tryStep kerf s panel) none with _ | b
  · rw [hfold] at h
    exact absurd h (by simp)
  · rw [hfold] at h
    obtain ⟨waste, bx, by', brot⟩ := b
    obtain ⟨-, rfl, rfl, rfl⟩ := Prod.mk.injEq .. ▸ h
    exact foldl_tryStep_sound _ none (by simp) _ hfold

/-- `Panel.rotate` preserves dimension positivity. -/
lemma rotate_pos {panel : Panel} (hw : 0 < panel.w) (hh : 0 < panel.h) :
    0 < panel.rotate.w ∧ 0 < panel.rotate.h := ⟨hh, hw⟩

/-- `Sheet.add` keeps the sheet inside the fits-gated reachable set: it only
ever places at a position/orientation at which `fits` returned `True`. -/
lemma reachable_add {kerf : ℚ} {s : Sheet} {panel : Panel} (hs : Reachable kerf s)
    (hw : 0 < panel.w) (hh : 0 < panel.h) :
    Reachable kerf (s.add kerf panel).2.1 := by
  unfold Sheet.add
  dsimp only
  rcases htr : s.try_add_panel kerf panel with ⟨succ, x, y, rot⟩
  rcases succ with _ | _
  · simpa using hs
  · have hf := try_add_panel_fits htr
    simp only [if_pos rfl]
    rcases rot with _ | _
    · simp only [Bool.false_eq_true, if_neg Bool.false_ne_true] at hf ⊢
      exact Reachable.step panel x y hs hw hh hf
    · simp only [if_pos rfl] at hf ⊢
      exact Reachable.step panel.rotate x y hs hh hw hf

end Hybrid

namespace Planar

lemma planar_place_panels (kerf : ℚ) (s : Sheet) (p : PlanarPanel) (x y : ℚ) :
    (s.place kerf p x y).panels = s.panels ++ [(p, x, y)] := rfl

/-- The filled-area accumulator of the planar engine equals the sum of the
exact polygon areas of the placed panels. -/
lemma planar_filled {kerf : ℚ} {s : Sheet} (h : Reachable kerf s) :
    s.filled_area = (s.panels.map fun t => t.1.area).sum := by
  induction h with
  | init w h tid avg hw hh => simp [Sheet.make]
  | step panel x y hs hpw hph hf ih =>
    show _ + _ = _
    rw [planar_place_panels, List.map_append, List.sum_append, ih]
    simp

end Planar

namespace Hybrid

lemma sheetPass_length (kerf : ℚ) (s : Sheet) (entries : List (Panel × Bool)) :
    ((sheetPass kerf s entries).2).length = entries.length := by
  induction entries generalizing s with
  | nil => rfl
  | cons e rest ih =>
    obtain ⟨p, placed⟩ := e
    unfold sheetPass
    dsimp only
    split
    · simp [ih]
    · split
      · split
        · simp
        · simp [ih]
      · simp [ih]

lemma fillSheets_length (kerf : ℚ) (sheets : List Sheet) (entries : List (Panel × Bool)) :
    ((fillSheets kerf sheets entries).2).length = entries.length := by
  induction sheets generalizing entries with
  | nil => rfl
  | cons s ss ih =>
    unfold fillSheets
    dsimp only
    split
    · simp [ih]
    · simp [ih, sheetPass_length]

/-- Every iteration of the driver loop that does not `break` strictly shrinks
the remaining-panel list: phase 1 only removes panels, a successful new sheet
places at least one, and the last resort always pops the head. -/
lemma nestBody_shrink (kerf avg : ℚ) (sizes : List (ℚ × ℚ × ℕ)) (sheets : List Sheet)
    (remaining : List Panel) :
    (nestBody kerf avg sizes sheets remaining).2.2.1 = true ∨
    (nestBody kerf avg sizes sheets remaining).2.1.length < remaining.length := by
  have hlen1 : ((((fillSheets kerf sheets (remaining.map fun p => (p, false))).2).filter
      (fun e => !e.2)).map Prod.fst).length ≤ remaining.length := by
    calc ((((fillSheets kerf sheets (remaining.map fun p => (p, false))).2).filter
          (fun e => !e.2)).map Prod.fst).length
        ≤ ((fillSheets kerf sheets (remaining.map fun p => (p, false))).2).length := by
          rw [List.length_map]
          exact List.length_filter_le _ _
      _ = remaining.length := by rw [fillSheets_length, List.length_map]
  unfold nestBody
  dsimp only
  rcases hmatch : (((fillSheets kerf sheets (remaining.map fun p => (p, false))).2).filter
      (fun e => !e.2)).map Prod.fst with _ | ⟨p, rest⟩
  · rw [hmatch]
    left
    rfl
  · rw [hmatch] at hlen1 ⊢
    simp only [List.length_cons] at hlen1
    dsimp only
    rcases hcfg : chooseConfig kerf avg sizes (p :: rest).length
        ((p :: rest).length ⊓ if (p :: rest).length > 50 then 20 else (p :: rest).length)
        ((p :: rest).take ((p :: rest).length ⊓
          if (p :: rest).length > 50 then 20 else (p :: rest).length))
      with _ | ⟨sheet_w, sheet_h, type_id⟩
    · dsimp only
      rcases hlr : lastResort kerf avg p (List.insertionSort sizeAreaLe sizes) with _ | ns
      · dsimp only
        right
        omega
      · dsimp only
        right
        omega
    · dsimp only
      split
      · right
        dsimp only
        rename_i hany
        have h2 : ((sheetPass kerf (Sheet.make sheet_w sheet_h type_id (some avg))
            ((p :: rest).map fun q => (q, false))).2).length = rest.length + 1 := by
          rw [sheetPass_length, List.length_map, List.length_cons]
        have hlt : (((sheetPass kerf (Sheet.make sheet_w sheet_h type_id (some avg))
            ((p :: rest).map fun q => (q, false))).2).filter (fun e => !e.2)).length <
            ((sheetPass kerf (Sheet.make sheet_w sheet_h type_id (some avg))
            ((p :: rest).map fun q => (q, false))).2).length := by
          rw [List.length_filter_lt_length_iff_exists]
          rw [List.any_eq_true] at hany
          obtain ⟨e, he, he2⟩ := hany
          exact ⟨e, he, by simp [he2]⟩
        rw [List.length_map]
        omega
      · left
        rfl

lemma nestLoop_iterations_le (kerf avg : ℚ) (sizes : List (ℚ × ℚ × ℕ)) (cap : ℕ) :
    ∀ (n : ℕ) (remaining : List Panel), remaining.length ≤ n →
      ∀ (sheets : List Sheet) (iteration : ℕ) (diags : List Diag),
        (nestLoop kerf avg sizes cap sheets remaining iteration diags).iterations ≤
          iteration + remaining.length := by
  intro n
  induction n with
  | zero =>
    intro remaining hlen sheets iteration diags
    have h0 : remaining = [] := List.eq_nil_of_length_eq_zero (by omega)
    subst h0
    rw [nestLoop]
    simp
  | succ n ih =>
    intro remaining hlen sheets iteration diags
    rcases remaining with _ | ⟨p, rest⟩
    · rw [nestLoop]
      simp
    · rw [nestLoop]
      split
      · simp only [List.length_cons]
        omega
      · split
        · simp only [List.length_cons]
          omega
        · rename_i hstop hcap
          rcases nestBody_shrink kerf avg sizes sheets (p :: rest) with hs | hs
          · exact absurd hs (by simpa using hstop)
          · have hrec := ih (nestBody kerf avg sizes sheets (p :: rest)).2.1
              (by simp only [List.length_cons] at hs hlen; omega) (nestBody kerf avg sizes sheets (p :: rest)).1
              (iteration + 1) (diags ++ (nestBody kerf avg sizes sheets (p :: rest)).2.2.2)
            simp only [List.length_cons] at hs ⊢
            omega

/-- The driver's iteration counter never exceeds the initial panel count
(hence never the cap `len(panels) * 2`). -/
lemma nest_panels_iterations_le (kerf avg : ℚ) (panels : List Panel)
    (sizes : List (ℚ × ℚ × ℕ)) :
    (nest_panels kerf avg panels sizes).iterations ≤ panels.length * 2 := by
  unfold nest_panels
  rcases panels with _ | ⟨p, rest⟩
  · simp
  · dsimp only
    have hlen : (List.insertionSort panelSortGe (p :: rest)).length = (p :: rest).length :=
      (List.perm_insertionSort _ _).length_eq
    have h := nestLoop_iterations_le kerf avg sizes ((p :: rest).length * 2)
      (List.insertionSort panelSortGe (p :: rest)).length
      (List.insertionSort panelSortGe (p :: rest)) (le_refl _) [] 0 []
    rw [hlen] at h
    simp only [List.length_cons] at h ⊢
    omega

/-- When the end-of-body safety check fires (`iteration > cap`), the loop
stops, records the diagnostic, and returns the sheets produced so far. -/
lemma nestLoop_at_cap (kerf avg : ℚ) (sizes : List (ℚ × ℚ × ℕ)) (cap : ℕ)
    (sheets : List Sheet) (p : Panel) (rest : List Panel) (iteration : ℕ)
    (diags : List Diag)
    (hstop : (nestBody kerf avg sizes sheets (p :: rest)).2.2.1 = false)
    (hcap : iteration + 1 > cap) :
    nestLoop kerf avg sizes cap sheets (p :: rest) iteration diags =
      ⟨(nestBody kerf avg sizes sheets (p :: rest)).1, iteration + 1,
       diags ++ (nestBody kerf avg sizes sheets (p :: rest)).2.2.2 ++
         [Diag.tooManyIterations]⟩ := by
  rw [nestLoop]
  rw [if_neg (by simp [hstop]), if_pos hcap]

lemma contains_self (r : FreeRectangle) : r.contains r = true := by
  simp [FreeRectangle.contains]

end Hybrid

/-- C1 counterexample: in the planar engine, `fits` only rejects on the
(sampled) polygon collision test, so a reachable sheet can hold two placed
panels whose kerf-inclusive bounding-box footprints (4×4 at `(0, 0)` and 4×4
at `(3, 3)`) overlap: two disjoint triangles whose boxes share the square
`(3, 3)–(4, 4)`. -/
theorem c1_counterexample :
    Planar.Reachable 0 psheet2 ∧
    (psheet2.panels.map fun t => (t.1.id, t.2.1, t.2.2,
      t.1.get_placed_width 0, t.1.get_placed_height 0)) =
      [(0, 0, 0, 4, 4), (1, 3, 3, 4, 4)] ∧
    overlapQ 0 0 4 4 3 3 4 4 := by
  refine ⟨?_, ?_, ?_⟩
  · exact Planar.Reachable.step triB 3 3
      (Planar.Reachable.step triA 0 0
        (Planar.Reachable.init 10 10 0 none (by norm_num) (by norm_num))
        (by norm_num [triA]) (by norm_num [triA]) (by with_unfolding_all rfl))
      (by norm_num [triB]) (by norm_num [triB]) (by with_unfolding_all rfl)
  · with_unfolding_all rfl
  · unfold overlapQ
    norm_num

/-- C1 (amended): in the rectangular engines (hybrid/v2), for every sheet
state reachable by the fits-gated placements `Sheet.add` performs, the
kerf-inclusive rectangular footprints of distinct placed panels never overlap
(open-rectangle overlap); in the planar engine only the polygon collision
test gates placement, so the bounding-box footprints may overlap. -/
theorem c1_no_overlap_rect_engines {kerf : ℚ} {s : Hybrid.Sheet}
    (hreach : Hybrid.Reachable kerf s) (hk : 0 ≤ kerf) :
    s.panels.Pairwise fun t u => ¬ Hybrid.tripleOverlap kerf t u :=
  (Hybrid.reachable_inv hk hreach).nooverlap

/-- Witness for the amended C1 at a concrete two-panel sheet. -/
theorem c1_witness :
    sheetDemo2.panels.Pairwise fun t u => ¬ Hybrid.tripleOverlap 0 t u :=
  c1_no_overlap_rect_engines
    (Hybrid.Reachable.step panelB 5 0
      (Hybrid.Reachable.step panelA 0 0
        (Hybrid.Reachable.init 10 10 0 none (by norm_num) (by norm_num))
        (by norm_num [panelA, Hybrid.Panel.make]) (by norm_num [panelA, Hybrid.Panel.make])
        (by with_unfolding_all rfl))
      (by norm_num [panelB, Hybrid.Panel.make]) (by norm_num [panelB, Hybrid.Panel.make])
      (by with_unfolding_all rfl))
    (le_refl 0)

/-- C2 counterexample: `fits` only checks the bounds up to the epsilon
tolerance `1e-6`, so a panel whose kerf-inclusive width is `10 + 5e-7` is
accepted at `x = 0` on a width-10 sheet and its placed footprint sticks out
of `[0, sheet_width]`. -/
theorem c2_counterexample :
    Hybrid.Reachable 0 (sheetDemo.place 0 panelWide 0 0) ∧
    (sheetDemo.place 0 panelWide 0 0).panels = [(panelWide, 0, 0)] ∧
    (sheetDemo.place 0 panelWide 0 0).w < 0 + panelWide.get_placed_width 0 := by
  refine ⟨?_, ?_, ?_⟩
  · exact Hybrid.Reachable.step panelWide 0 0
      (Hybrid.Reachable.init 10 10 0 none (by norm_num) (by norm_num))
      (by norm_num [panelWide, Hybrid.Panel.make])
      (by norm_num [panelWide, Hybrid.Panel.make])
      (by with_unfolding_all rfl)
  · with_unfolding_all rfl
  · show (10 : ℚ) < 0 + (10 + 1 / 2000000 + 0)
    norm_num

/-- C2 (amended): every placed kerf-inclusive footprint of a reachable sheet
lies within the epsilon-enlarged rectangle
`[-1e-6, sheet_width + 1e-6] × [-1e-6, sheet_height + 1e-6]` — the in-bounds
check of `Sheet.fits` guarantees `x ≥ -ε`, `y ≥ -ε`,
`x + placed_width ≤ sheet_width + ε` and
`y + placed_height ≤ sheet_height + ε` with `ε = 1e-6`, not the exact
containment the claim states. -/
theorem c2_bounds_with_epsilon {kerf : ℚ} {s : Hybrid.Sheet}
    (hreach : Hybrid.Reachable kerf s) (hk : 0 ≤ kerf) :
    ∀ t ∈ s.panels, -eps ≤ t.2.1 ∧ -eps ≤ t.2.2 ∧
      t.2.1 + t.1.get_placed_width kerf ≤ s.w + eps ∧
      t.2.2 + t.1.get_placed_height kerf ≤ s.h + eps :=
  (Hybrid.reachable_inv hk hreach).bounds

/-- Witness for the amended C2 at a concrete one-panel sheet. -/
theorem c2_witness :
    -eps ≤ ((panelA, (0 : ℚ), (0 : ℚ))).2.1 ∧ -eps ≤ ((panelA, (0 : ℚ), (0 : ℚ))).2.2 ∧
      ((panelA, (0 : ℚ), (0 : ℚ))).2.1 + ((panelA, (0 : ℚ), (0 : ℚ))).1.get_placed_width 0 ≤
        (sheetDemo.place 0 panelA 0 0).w + eps ∧
      ((panelA, (0 : ℚ), (0 : ℚ))).2.2 + ((panelA, (0 : ℚ), (0 : ℚ))).1.get_placed_height 0 ≤
        (sheetDemo.place 0 panelA 0 0).h + eps :=
  c2_bounds_with_epsilon
    (Hybrid.Reachable.step panelA 0 0
      (Hybrid.Reachable.init 10 10 0 none (by norm_num) (by norm_num))
      (by norm_num [panelA, Hybrid.Panel.make]) (by norm_num [panelA, Hybrid.Panel.make])
      (by with_unfolding_all rfl))
    (le_refl 0) (panelA, 0, 0)
    (by with_unfolding_all exact List.mem_append_right _ (List.mem_singleton.mpr rfl))

/-- C3: after every `place`, the filled-area accumulator equals the sum of
the placed panels' footprint areas — kerf-inclusive `placed_width *
placed_height` in the rectangular engines, the exact polygon area in the
planar engine. -/
theorem c3_area_conservation :
    (∀ (kerf : ℚ) (s : Hybrid.Sheet), Hybrid.Reachable kerf s →
      s.filled_area = (s.panels.map fun t =>
        t.1.get_placed_width kerf * t.1.get_placed_height kerf).sum) ∧
    (∀ (kerf : ℚ) (s : Planar.Sheet), Planar.Reachable kerf s →
      s.filled_area = (s.panels.map fun t => t.1.area).sum) :=
  ⟨fun _ _ h => Hybrid.hybrid_filled h, fun _ _ h => Planar.planar_filled h⟩

/-- Witness for C3 at concrete two-panel sheets of both engines. -/
theorem c3_witness :
    sheetDemo2.filled_area = (sheetDemo2.panels.map fun t =>
      t.1.get_placed_width 0 * t.1.get_placed_height 0).sum ∧
    psheet2.filled_area = (psheet2.panels.map fun t => t.1.area).sum :=
  ⟨c3_area_conservation.1 0 sheetDemo2
    (Hybrid.Reachable.step panelB 5 0
      (Hybrid.Reachable.step panelA 0 0
        (Hybrid.Reachable.init 10 10 0 none (by norm_num) (by norm_num))
        (by norm_num [panelA, Hybrid.Panel.make]) (by norm_num [panelA, Hybrid.Panel.make])
        (by with_unfolding_all rfl))
      (by norm_num [panelB, Hybrid.Panel.make]) (by norm_num [panelB, Hybrid.Panel.make])
      (by with_unfolding_all rfl)),
   c3_area_conservation.2 0 psheet2
    (Planar.Reachable.step triB 3 3
      (Planar.Reachable.step triA 0 0
        (Planar.Reachable.init 10 10 0 none (by norm_num) (by norm_num))
        (by norm_num [triA]) (by norm_num [triA]) (by with_unfolding_all rfl))
      (by norm_num [triB]) (by norm_num [triB]) (by with_unfolding_all rfl))⟩

/-- C4: on any reachable sheet, the grid-scoped collision test of
`Sheet.fits` is equivalent to the naive scan: `fits` returns `True` exactly
when the kerf-inclusive footprint is inside the sheet bounds (with the
epsilon tolerance) and overlaps no placed panel's footprint — restricting the
check to the grid cells spanned by the candidate never misses an overlapping
panel. -/
theorem c4_fits_iff_naive {kerf : ℚ} {s : Hybrid.Sheet}
    (hreach : Hybrid.Reachable kerf s) (hk : 0 ≤ kerf) {p : Hybrid.Panel}
    (hpw : 0 < p.w) (hph : 0 < p.h) (x y : ℚ) :
    s.fits kerf p x y = true ↔
      ((x + p.get_placed_width kerf ≤ s.w + eps ∧
        y + p.get_placed_height kerf ≤ s.h + eps ∧ -eps ≤ x ∧ -eps ≤ y) ∧
       ∀ t ∈ s.panels,
         ¬ overlapQ x y (p.get_placed_width kerf) (p.get_placed_height kerf)
           t.2.1 t.2.2 (t.1.get_placed_width kerf) (t.1.get_placed_height kerf)) := by
  have inv := Hybrid.reachable_inv hk hreach
  constructor
  · intro hf
    exact ⟨Hybrid.fits_bounds hf, Hybrid.fits_no_overlap inv hk hpw hph hf⟩
  · intro h
    exact Hybrid.fits_of_no_overlap inv h.1 h.2

/-- Witness for C4 at a concrete sheet and panel. -/
theorem c4_witness :
    Hybrid.Sheet.fits 0 sheetDemo p23 1 1 = true ↔
      ((1 + p23.get_placed_width 0 ≤ sheetDemo.w + eps ∧
        1 + p23.get_placed_height 0 ≤ sheetDemo.h + eps ∧ -eps ≤ (1 : ℚ) ∧ -eps ≤ (1 : ℚ)) ∧
       ∀ t ∈ sheetDemo.panels,
         ¬ overlapQ 1 1 (p23.get_placed_width 0) (p23.get_placed_height 0)
           t.2.1 t.2.2 (t.1.get_placed_width 0) (t.1.get_placed_height 0)) :=
  c4_fits_iff_naive (Hybrid.Reachable.init 10 10 0 none (by norm_num) (by norm_num))
    (le_refl 0) (by norm_num [p23, Hybrid.Panel.make]) (by norm_num [p23, Hybrid.Panel.make])
    1 1

/-- C5: the guillotine scenario — stock 240×120, kerf 5, one 54×40 panel,
horizontal sheet grain with match-sheet panel grain — places the panel at
`(0, 0)` unrotated with grain "Horizontal", and leaves exactly two residual
sub-sheets: one beside the panel (width `240 - 54 - 5`, full height) and one
above it (height `120 - 40 - 5`, the panel's width), the kerf subtracted from
each residual dimension. -/
theorem c5_guillotine_scenario :
    c5demo.placed_panels = [⟨c5panel, 0, 0, 54, 40, 0, "Horizontal", 0⟩] ∧
    c5demo.remaining_sub_sheets =
      [⟨54 + 5, 0, 240 - 54 - 5, 120, 1, 0, 0⟩,
       ⟨0, 40 + 5, 54, 120 - 40 - 5, 1, 1, 0⟩] :=
  ⟨by with_unfolding_all rfl, by with_unfolding_all rfl⟩

/-- C6: grain gating in the guillotine variant — a placement is accepted only
if the panel's effective orientation satisfies the configured grain
constraint (the accepted placement carries exactly the validated grain); when
the grain validation rejects, `_can_place_panel_in_sub_sheet` returns `None`
even if the panel geometrically fits; and the unrotated orientation is always
tried before the rotated one (a successful unrotated placement is the one
committed). -/
theorem c6_grain_gating :
    ∀ (a : BeamSaw.Algo) (p : BeamSaw.Panel) (s : BeamSaw.SubSheet),
      (∀ rot pl, a.can_place_panel_in_sub_sheet p s rot = some pl →
        a.validate_grain_direction p rot = some pl.final_grain_direction) ∧
      (∀ rot, a.validate_grain_direction p rot = none →
        a.can_place_panel_in_sub_sheet p s rot = none) ∧
      (∀ pl, a.can_place_panel_in_sub_sheet p s false = some pl →
        a.try_in_sub_sheet p s = some pl) := by
  intro a p s
  refine ⟨?_, ?_, ?_⟩
  · intro rot pl h
    unfold BeamSaw.Algo.can_place_panel_in_sub_sheet at h
    dsimp only at h
    rcases hv : a.validate_grain_direction p rot with _ | g <;> rw [hv] at h <;>
      dsimp only at h
    · simp at h
    · repeat' split at h
      · obtain rfl := Option.some.inj h
        rfl
      · exact absurd h (by simp)
      · obtain rfl := Option.some.inj h
        rfl
      · exact absurd h (by simp)
  · intro rot hnone
    unfold BeamSaw.Algo.can_place_panel_in_sub_sheet
    dsimp only
    rw [hnone]
    simp
  · intro pl h
    unfold BeamSaw.Algo.try_in_sub_sheet
    rw [h]

/-- Witness for C6: on a horizontal-grain sheet the portrait panel `pVert` is
rejected unrotated although it fits, and the landscape panel `pHorz` is
committed unrotated. -/
theorem c6_witness :
    grainAlgo.can_place_panel_in_sub_sheet pVert subDemo false = none ∧
    grainAlgo.try_in_sub_sheet pHorz subDemo = some plHorz :=
  ⟨(c6_grain_gating grainAlgo pVert subDemo).2.1 false (by with_unfolding_all rfl),
   (c6_grain_gating grainAlgo pHorz subDemo).2.2 plHorz (by with_unfolding_all rfl)⟩

/-- C7: the `nest_panels` driver always terminates with its iteration counter
at most the cap `2 × initial panel count` (each non-breaking iteration
strictly shrinks the remaining set, so at most `n ≤ 2n` iterations run); and
when the end-of-body safety check fires, the loop stops, appends the
too-many-iterations diagnostic, and returns the sheets produced so far
instead of raising. -/
theorem c7_iteration_cap :
    (∀ (kerf avg : ℚ) (panels : List Hybrid.Panel) (sheet_sizes : List (ℚ × ℚ × ℕ)),
      (Hybrid.nest_panels kerf avg panels sheet_sizes).iterations ≤ panels.length * 2) ∧
    (∀ (kerf avg : ℚ) (sizes : List (ℚ × ℚ × ℕ)) (cap : ℕ) (sheets : List Hybrid.Sheet)
       (p : Hybrid.Panel) (rest : List Hybrid.Panel) (iteration : ℕ)
       (diags : List Hybrid.Diag),
      (Hybrid.nestBody kerf avg sizes sheets (p :: rest)).2.2.1 = false →
      iteration + 1 > cap →
      Hybrid.nestLoop kerf avg sizes cap sheets (p :: rest) iteration diags =
        ⟨(Hybrid.nestBody kerf avg sizes sheets (p :: rest)).1, iteration + 1,
         diags ++ (Hybrid.nestBody kerf avg sizes sheets (p :: rest)).2.2.2 ++
           [Hybrid.Diag.tooManyIterations]⟩) :=
  ⟨fun kerf avg panels sizes => Hybrid.nest_panels_iterations_le kerf avg panels sizes,
   fun kerf avg sizes cap sheets p rest iteration diags hstop hcap =>
     Hybrid.nestLoop_at_cap kerf avg sizes cap sheets p rest iteration diags hstop hcap⟩

/-- Witness for C7: one oversized panel on one stock size — the driver stops
after a single iteration, and a loop state past the cap stops with the
diagnostic. -/
theorem c7_witness :
    (Hybrid.nest_panels 0 1 [bigPanel] [(10, 10, 0)]).iterations ≤ 2 ∧
    Hybrid.nestLoop 0 1 [(10, 10, 0)] 0 [] [bigPanel] 0 [] =
      ⟨(Hybrid.nestBody 0 1 [(10, 10, 0)] [] [bigPanel]).1, 1,
       [] ++ (Hybrid.nestBody 0 1 [(10, 10, 0)] [] [bigPanel]).2.2.2 ++
         [Hybrid.Diag.tooManyIterations]⟩ :=
  ⟨c7_iteration_cap.1 0 1 [bigPanel] [(10, 10, 0)],
   c7_iteration_cap.2 0 1 [(10, 10, 0)] 0 [] bigPanel [] 0 []
     (by with_unfolding_all rfl) (by norm_num)⟩

set_option maxRecDepth 100000 in
set_option maxHeartbeats 2000000 in
/-- C8 counterexample: on a 100-segment skyline, adding a panel whose new
segment sorts last makes the post-sort list 101 segments long; the cap then
drops the just-added (newest) segment and keeps all 100 older ones — the
dropped segment is not the oldest. -/
theorem c8_counterexample :
    skyDemo.length = 100 ∧
    (Hybrid.update_skyline_sorted skyDemo 100 0 1 5).length = 101 ∧
    Hybrid.update_skyline skyDemo 100 0 1 5 = skyDemo ∧
    ¬ ((100 : ℚ), (5 : ℚ), (1 : ℚ)) ∈ Hybrid.update_skyline skyDemo 100 0 1 5 := by
  refine ⟨by with_unfolding_all rfl, by with_unfolding_all rfl,
    by with_unfolding_all rfl, ?_⟩
  exact of_decide_eq_false (by with_unfolding_all rfl)

/-- C8 (amended): after every `_update_skyline` the segment list is sorted by
`(y, x)` ascending and holds at most 100 segments; when the cap is exceeded
the segments dropped are the greatest in `(y, x)` order — the sorted list is
truncated to its first 100 entries — regardless of segment age. -/
theorem c8_skyline_sorted_capped :
    ∀ (skyline : List (ℚ × ℚ × ℚ)) (x y w h : ℚ),
      List.Pairwise Hybrid.segLe (Hybrid.update_skyline skyline x y w h) ∧
      (Hybrid.update_skyline skyline x y w h).length ≤ 100 ∧
      Hybrid.update_skyline skyline x y w h =
        (Hybrid.update_skyline_sorted skyline x y w h).take 100 :=
  fun skyline x y w h =>
    ⟨Hybrid.update_skyline_pairwise skyline x y w h,
     Hybrid.update_skyline_length_le skyline x y w h,
     Hybrid.update_skyline_eq_take skyline x y w h⟩

/-- C9: four rotations return a rectangular panel's width, height and
rotation flag, and a planar panel's width, height, rotation flag and rotation
angle, to their original values (planar panels constructed by the engine keep
their angle in `[0, 360)` and their flag equal to `angle ≠ 0`). -/
theorem c9_rotation_round_trip :
    (∀ p : Hybrid.Panel,
      (p.rotate.rotate.rotate.rotate).w = p.w ∧
      (p.rotate.rotate.rotate.rotate).h = p.h ∧
      (p.rotate.rotate.rotate.rotate).rotated = p.rotated) ∧
    (∀ q : Planar.PlanarPanel, q.rotation_angle < 360 →
      q.rotated = decide (q.rotation_angle ≠ 0) →
      (q.rotate.rotate.rotate.rotate).w = q.w ∧
      (q.rotate.rotate.rotate.rotate).h = q.h ∧
      (q.rotate.rotate.rotate.rotate).rotated = q.rotated ∧
      (q.rotate.rotate.rotate.rotate).rotation_angle = q.rotation_angle) := by
  constructor
  · intro p
    refine ⟨rfl, rfl, ?_⟩
    simp [Hybrid.Panel.rotate]
  · intro q hlt hrot
    have hang : ((((q.rotation_angle + 90) % 360 + 90) % 360 + 90) % 360 + 90) % 360 =
        q.rotation_angle := by omega
    simp only [Planar.PlanarPanel.rotate]
    refine ⟨trivial, trivial, ?_, hang⟩
    simp only [hang]
    rw [hrot]

/-- Witness for C9 at a concrete rectangular and a concrete planar panel. -/
theorem c9_witness :
    ((rpanel.rotate.rotate.rotate.rotate).w = rpanel.w ∧
     (rpanel.rotate.rotate.rotate.rotate).h = rpanel.h ∧
     (rpanel.rotate.rotate.rotate.rotate).rotated = rpanel.rotated) ∧
    ((triA.rotate.rotate.rotate.rotate).w = triA.w ∧
     (triA.rotate.rotate.rotate.rotate).h = triA.h ∧
     (triA.rotate.rotate.rotate.rotate).rotated = triA.rotated ∧
     (triA.rotate.rotate.rotate.rotate).rotation_angle = triA.rotation_angle) :=
  ⟨c9_rotation_round_trip.1 rpanel,
   c9_rotation_round_trip.2 triA (by decide) rfl⟩

/-- C10: if the list handed to `_prune_free_rects` holds two identical free
rectangles at distinct indices, each is judged contained in the other, so no
copy of that rectangle survives pruning — the region is deleted entirely
rather than keeping one representative. -/
theorem c10_duplicate_free_rects_removed :
    ∀ (rects : List Hybrid.FreeRectangle) (i j : ℕ) (hi : i < rects.length)
      (hj : j < rects.length), i ≠ j → rects[i] = rects[j] →
      ∀ r ∈ Hybrid.prune_free_rects rects, r ≠ rects[i] := by
  intro rects i j hi hj hij heq r hr hcontra
  unfold Hybrid.prune_free_rects at hr
  split at hr
  · rename_i hlen
    omega
  · obtain ⟨⟨k, rk⟩, hkf, hsnd⟩ := List.mem_map.1 hr
    obtain ⟨hkenum, hcond⟩ := List.mem_filter.1 hkf
    rw [Bool.not_eq_true', List.any_eq_false] at hcond
    have hrk : rk = rects[i] := by
      rw [← hcontra]
      exact hsnd
    rcases eq_or_ne k i with rfl | hki
    · have hjmem : ((j, rects[j]) : ℕ × Hybrid.FreeRectangle) ∈ rects.enum := by
        rw [List.mem_enum_iff_getElem?]
        exact List.getElem?_eq_getElem hj
      have hc := hcond _ hjmem
      simp only [Bool.and_eq_true, decide_eq_true_iff, not_and] at hc
      exact hc (fun h => hij h.symm)
        (by rw [hrk, heq]; exact Hybrid.contains_self _)
    · have himem : ((i, rects[i]) : ℕ × Hybrid.FreeRectangle) ∈ rects.enum := by
        rw [List.mem_enum_iff_getElem?]
        exact List.getElem?_eq_getElem hi
      have hc := hcond _ himem
      simp only [Bool.and_eq_true, decide_eq_true_iff, not_and] at hc
      exact hc (fun h => hki h.symm) (by rw [hrk]; exact Hybrid.contains_self _)

/-- Witness for C10: pruning a two-element list of identical rectangles
removes both copies. -/
theorem c10_witness :
    (∀ r ∈ Hybrid.prune_free_rects [rectDup, rectDup], r ≠ rectDup) ∧
    Hybrid.prune_free_rects [rectDup, rectDup] = [] :=
  ⟨c10_duplicate_free_rects_removed [rectDup, rectDup] 0 1 (by norm_num) (by norm_num)
    (by norm_num) rfl,
   by with_unfolding_all rfl⟩

